import Mathlib

/-!
# Alert notifier base: settings accessors and the notification decision

A shallow embedding of `pkg/services/alerting/notifiers/base.go`:

* `GetSettingBool`, `GetSettingString`, `GetSettingInt64`: typed reads from
  the untyped settings of a notification channel;
* `NotifierBase.ShouldNotify`: the ordered chain of guards that decides
  whether an evaluation sends a notification.

Go's `(value, error)` results are pairs `T × Option ValidationError`, because
the accessors return a value next to the error.  Go's `int64` values are
carried by `Int`.  Where the 64-bit range decides a result it is explicit:
`UpdatedAt` and `Frequency` come with a proof that they are `int64` values,
the arithmetic of package `time` wraps around as in Go, and
`strconv.ParseInt` checks the range.
-/

namespace Notifiers

/-! ## Time (package `time` of the Go standard library) -/

/-- Go `time.Duration`: a signed count of nanoseconds, an `int64`. -/
abbrev Duration := Int

/-- Go `time.Second`. -/
def Second : Duration := 1000000000

/-- Go `time.Minute`. -/
def Minute : Duration := 60 * Second

/-- Go `time.Hour`. -/
def Hour : Duration := 60 * Minute

/-- The values of Go's `int64`. -/
abbrev IsInt64 (i : Int) : Prop := -9223372036854775808 ≤ i ∧ i ≤ 9223372036854775807

/-- What Go's `int64` arithmetic leaves of an exact result: the value modulo
`2 ^ 64` that lies in the range of `int64`. -/
def wrapInt64 (i : Int) : Int :=
  (i + 9223372036854775808) % 18446744073709551616 - 9223372036854775808

/-- Go's `a / b` on integers for a positive `b`: division that truncates
toward zero, written with floor division. -/
def truncDiv (a b : Int) : Int := if 0 ≤ a then a / b else -((-a) / b)

/-- Go's `a % b` on integers: the remainder of the truncating division, which
has the sign of `a`. -/
def truncMod (a b : Int) : Int := a - truncDiv a b * b

/-- The constant `unixToInternal` of package `time`: the seconds from January
1 of year 1, where the library starts counting, to the Unix epoch. -/
def unixToInternal : Int := 62135596800

/-- Go `time.Time` without a monotonic reading, by what its methods `sec()`
and `nsec()` return: the seconds since January 1 of year 1, an `int64`, and
the nanoseconds within that second. -/
structure Time where
  sec : Int
  nsec : Int
  sec_int64 : IsInt64 sec := by decide
  nsec_range : 0 ≤ nsec ∧ nsec < 1000000000 := by decide

/-- The instant of a `Time` as nanoseconds since the Unix epoch, as an exact
integer (Go's `UnixNano` without its overflow). -/
def Time.unixNano (t : Time) : Int := (t.sec - unixToInternal) * 1000000000 + t.nsec

/-- Go `time.Unix(sec, nsec)`: `nsec` is brought into `[0, 999999999]`,
carrying whole seconds into `sec`, and `unixToInternal` is added; each of
these `int64` additions wraps around on overflow. -/
def Time.Unix (sec nsec : Int) : Time :=
  if hn : nsec < 0 ∨ nsec ≥ 1000000000 then
    let n := truncDiv nsec 1000000000
    let sec₁ := wrapInt64 (sec + n)
    let nsec₁ := nsec - n * 1000000000
    if h : nsec₁ < 0 then
      { sec := wrapInt64 (wrapInt64 (sec₁ - 1) + unixToInternal)
        nsec := nsec₁ + 1000000000
        sec_int64 := by unfold wrapInt64 IsInt64; omega
        nsec_range := by
          simp only [nsec₁, n, truncDiv] at h ⊢
          split at h <;> split <;> omega }
    else
      { sec := wrapInt64 (sec₁ + unixToInternal)
        nsec := nsec₁
        sec_int64 := by unfold wrapInt64 IsInt64; omega
        nsec_range := by
          simp only [nsec₁, n, truncDiv] at h ⊢
          split at h <;> split <;> omega }
  else
    { sec := wrapInt64 (sec + unixToInternal)
      nsec := nsec
      sec_int64 := by unfold wrapInt64 IsInt64; omega
      nsec_range := by omega }

/-- The method `addSec` of `time.Time`, for a time without a monotonic
reading: the seconds counter plus `d`, held at the largest or smallest value
when the `int64` sum overflows.  (Releases of Go before this check let the sum
wrap around; no theorem below depends on what happens on overflow here.) -/
def addSec (sec d : Int) : Int :=
  let sum := wrapInt64 (sec + d)
  if decide (sum > sec) == decide (d > 0) then sum
  else if d > 0 then 9223372036854775807
  else -9223372036854775807

/-- Go `t.Add(d)`: the whole seconds of `d` go to the seconds counter through
`addSec`, the rest to the nanoseconds, with a carry of one second when the
nanoseconds leave `[0, 999999999]`. -/
def Time.Add (t : Time) (d : Duration) : Time :=
  let dsec := truncDiv d 1000000000
  let nsec := t.nsec + truncMod d 1000000000
  if h1 : nsec ≥ 1000000000 then
    { sec := addSec t.sec (dsec + 1)
      nsec := nsec - 1000000000
      sec_int64 := by unfold addSec wrapInt64 IsInt64; simp only; split_ifs <;> omega
      nsec_range := by
        have ht := t.nsec_range
        simp only [nsec, truncMod, truncDiv] at h1 ⊢
        split at h1 <;> split <;> omega }
  else if h2 : nsec < 0 then
    { sec := addSec t.sec (dsec - 1)
      nsec := nsec + 1000000000
      sec_int64 := by unfold addSec wrapInt64 IsInt64; simp only; split_ifs <;> omega
      nsec_range := by
        have ht := t.nsec_range
        simp only [nsec, truncMod, truncDiv] at h1 h2 ⊢
        split at h1 <;> split <;> omega }
  else
    { sec := addSec t.sec dsec
      nsec := nsec
      sec_int64 := by unfold addSec wrapInt64 IsInt64; simp only; split_ifs <;> omega
      nsec_range := by omega }

/-- Go `t.After(u)` for times of which at most one has a monotonic reading:
the seconds are compared first, then the nanoseconds. -/
def Time.After (t u : Time) : Bool :=
  decide (t.sec > u.sec) || (decide (t.sec = u.sec) && decide (t.nsec > u.nsec))

/-- The `int64` additions behind `time.Unix(sec, 0).Add(d)` do not overflow:
neither the shift of `sec` to the library's epoch nor the addition of the
whole seconds of `d` exceeds the largest `int64`. -/
def UnixAddFits (sec : Int) (d : Duration) : Prop :=
  sec + unixToInternal ≤ 9223372036854775807 ∧
  sec + unixToInternal + d / 1000000000 ≤ 9223372036854775807

/-! ## Alert states (package `models`) -/

/-- Modelled from the spec: `models.AlertStateType`, declared in package
`models`.  The spec names the rule states Ok, Pending and Alerting and leaves
room for further ones; the Go type is a string, so every further state is
kept under its name. -/
inductive AlertStateType where
  | AlertStateOK
  | AlertStatePending
  | AlertStateAlerting
  | Other (name : String)
  deriving DecidableEq, Repr

/-- Modelled from the spec: `models.AlertNotificationStateType`, declared in
package `models`.  The spec names the record states Pending and Completed;
the Go type is a string, so every further state is kept under its name. -/
inductive AlertNotificationStateType where
  | AlertNotificationStatePending
  | AlertNotificationStateCompleted
  | Other (name : String)
  deriving DecidableEq, Repr

export AlertStateType (AlertStateOK AlertStatePending AlertStateAlerting)
export AlertNotificationStateType (AlertNotificationStatePending
  AlertNotificationStateCompleted)

/-- Modelled from the spec: the fields of `models.AlertNotificationState`
(the notification record) that `ShouldNotify` reads: the state of the last
dispatch attempt and the Unix time, in seconds, of its last update, an
`int64`. -/
structure AlertNotificationState where
  State : AlertNotificationStateType
  UpdatedAt : Int
  UpdatedAt_int64 : IsInt64 UpdatedAt := by decide

/-- Modelled from the spec: the field of `alerting.Rule` that `ShouldNotify`
reads, the current alert state. -/
structure Rule where
  State : AlertStateType
  deriving DecidableEq, Repr

/-- Modelled from the spec: the fields of `alerting.EvalContext` (the
evaluation outcome) that `ShouldNotify` reads. -/
structure EvalContext where
  PrevAlertState : AlertStateType
  Rule : Rule
  deriving DecidableEq, Repr

/-! ## Settings (packages `simplejson`, `models`, `alerting`, `strconv`) -/

/-- Modelled from the spec: a value of the untyped settings store
(`simplejson.Json`), as the tagged union the spec describes: a native
boolean, a native string, a native integer, or an object, the kind that no
accessor converts.  An object maps keys to values. -/
inductive Json where
  | bool (b : Bool)
  | string (s : String)
  | int (i : Int)
  | object (fields : List (String × Json))

/-- Modelled from the spec: `(*Json).CheckGet(key)`, get-if-present: the
value stored under `key` when the receiver is an object that has the key. -/
def Json.CheckGet (j : Json) (key : String) : Option Json :=
  match j with
  | .object fields => fields.lookup key
  | _ => none

/-- Modelled from the spec: `(*Json).Bool()`, which succeeds on a native
boolean only. -/
def Json.Bool (j : Json) : Option Bool :=
  match j with
  | .bool b => some b
  | _ => none

/-- Modelled from the spec: `(*Json).String()`, which succeeds on a native
string only. -/
def Json.String (j : Json) : Option String :=
  match j with
  | .string s => some s
  | _ => none

/-- Modelled from the spec: `(*Json).Int64()`, which succeeds on a native
integer only. -/
def Json.Int64 (j : Json) : Option Int :=
  match j with
  | .int i => some i
  | _ => none

/-- Modelled from the spec: `alerting.ValidationError`, the error value of
the accessors; `Reason` is its message. -/
structure ValidationError where
  Reason : String
  deriving DecidableEq, Repr

/-- Modelled from the spec: the fields of `models.AlertNotification` that
this file reads; the frequency is a `time.Duration`, an `int64`. -/
structure AlertNotification where
  Id : Int
  Name : String
  Type_ : String
  IsDefault : Bool
  SendReminder : Bool
  DisableResolveMessage : Bool
  Frequency : Duration
  Settings : Json
  Frequency_int64 : IsInt64 Frequency := by decide

/-- The value of a decimal digit, as in the digit loop of Go's
`strconv.ParseUint`; any other character is a syntax error. -/
def digitVal (c : Char) : Option Nat :=
  if '0' ≤ c ∧ c ≤ '9' then some (c.toNat - '0'.toNat) else none

/-- The digit loop of Go's `strconv.ParseUint` in base 10: the value of a
run of decimal digits, or nothing at the first character that is no digit. -/
def parseDigits : List Char → Nat → Option Nat
  | [], acc => some acc
  | c :: cs, acc =>
    match digitVal c with
    | none => none
    | some d => parseDigits cs (acc * 10 + d)

/-- Go `strconv.ParseInt(s, 10, 64)`, as far as the caller looks at it: the
parsed value when the error is nil, nothing otherwise.  The string is an
optional sign followed by one or more decimal digits, and the value has to
lie in the range of `int64`. -/
def ParseInt (s : String) : Option Int :=
  match s.data with
  | [] => none
  | c :: cs =>
    let neg := c == '-'
    let digits := if c == '+' || c == '-' then cs else c :: cs
    if digits.isEmpty then none
    else
      match parseDigits digits 0 with
      | none => none
      | some un =>
        let cutoff : Nat := 2 ^ 63
        if !neg && un ≥ cutoff then none
        else if neg && un > cutoff then none
        else some (if neg then -(un : Int) else (un : Int))

/-- The function `GetSettingBool`.  `args` is the variadic tail of the call:
a default is supplied when it has exactly one element. -/
def GetSettingBool (model : AlertNotification) (key : String) (args : List Bool) :
    Bool × Option ValidationError := Id.run do
  let def_ := if args.length == 1 then args.getD 0 false else false
  match model.Settings.CheckGet key with
  | none =>
    if args.length == 1 then
      return (def_, none)
    return (def_, some ⟨"Could not find " ++ key ++ " property in settings"⟩)
  | some val =>
    if let some b := val.Bool then
      return (b, none)
    if let some s := val.String then
      return (s != "", none)
    if let some i := val.Int64 then
      return (i != 0, none)
    return (def_, some ⟨"Invalid " ++ key ++ " property in settings"⟩)

/-- The function `GetSettingString`. -/
def GetSettingString (model : AlertNotification) (key : String) (args : List String) :
    String × Option ValidationError := Id.run do
  let def_ := if args.length == 1 then args.getD 0 "" else ""
  match model.Settings.CheckGet key with
  | none =>
    if args.length == 1 then
      return (def_, none)
    return (def_, some ⟨"Could not find " ++ key ++ " property in settings"⟩)
  | some val =>
    if let some s := val.String then
      return (s, none)
    return ("", some ⟨"Invalid " ++ key ++ " property in settings"⟩)

/-- The function `GetSettingInt64`. -/
def GetSettingInt64 (model : AlertNotification) (key : String) (args : List Int) :
    Int × Option ValidationError := Id.run do
  let def_ := if args.length == 1 then args.getD 0 0 else 0
  match model.Settings.CheckGet key with
  | none =>
    if args.length == 1 then
      return (def_, none)
    return (def_, some ⟨"Could not find " ++ key ++ " property in settings"⟩)
  | some val =>
    if let some i := val.Int64 then
      return (i, none)
    if let some s := val.String then
      if let some i := ParseInt s then
        return (i, none)
    return (def_, some ⟨"Invalid " ++ key ++ " property in settings"⟩)

/-! ## The notifier -/

/-- The struct `NotifierBase`, without its logger; the frequency is a
`time.Duration`, an `int64`. -/
structure NotifierBase where
  Name : String
  Type_ : String
  Id : Int
  IsDeault : Bool
  UploadImage : Bool
  SendReminder : Bool
  DisableResolveMessage : Bool
  Frequency : Duration
  Frequency_int64 : IsInt64 Frequency := by decide

/-- The body of `(*NotifierBase).ShouldNotify`, guard by guard and with the
early returns of the source.  The source reads the clock twice, once in the
reminder block and once in the pending-record block: `now₁` and `now₂` are
the two readings of `time.Now()`. -/
def NotifierBase.ShouldNotifyClock (n : NotifierBase) (context : EvalContext)
    (notiferState : AlertNotificationState) (now₁ now₂ : Time) : Bool := Id.run do
  -- Only notify on state change.
  if context.PrevAlertState == context.Rule.State && !n.SendReminder then
    return false
  if context.PrevAlertState == context.Rule.State && n.SendReminder then
    -- Do not notify if interval has not elapsed
    let lastNotify := Time.Unix notiferState.UpdatedAt 0
    if notiferState.UpdatedAt != 0 && (lastNotify.Add n.Frequency).After now₁ then
      return false
    -- Do not notify if alert state is OK or pending even on repeated notify
    if context.Rule.State == AlertStateOK || context.Rule.State == AlertStatePending then
      return false
  -- Do not notify when we become OK for the first time.
  if context.PrevAlertState == AlertStatePending && context.Rule.State == AlertStateOK then
    return false
  -- Do not notify when we OK -> Pending
  if context.PrevAlertState == AlertStateOK && context.Rule.State == AlertStatePending then
    return false
  -- Do not notify if state pending and it have been updated last minute
  if notiferState.State == AlertNotificationStatePending then
    let lastUpdated := Time.Unix notiferState.UpdatedAt 0
    if (lastUpdated.Add (1 * Minute)).After now₂ then
      return false
  -- Do not notify when state is OK if DisableResolveMessage is set to true
  if context.Rule.State == AlertStateOK && n.DisableResolveMessage then
    return false
  return true

/-- The decision `ShouldNotify` at the clock value `now`: both readings of
`time.Now()` return `now`. -/
def NotifierBase.ShouldNotify (n : NotifierBase) (context : EvalContext)
    (notiferState : AlertNotificationState) (now : Time) : Bool :=
  n.ShouldNotifyClock context notiferState now now

/-- The function `NewNotifierBase`, without the logger. -/
def NewNotifierBase (model : AlertNotification) : NotifierBase :=
  let uploadImage := (GetSettingBool model "uploadImage" [true]).1
  { Id := model.Id
    Name := model.Name
    IsDeault := model.IsDefault
    Type_ := model.Type_
    UploadImage := uploadImage
    SendReminder := model.SendReminder
    DisableResolveMessage := model.DisableResolveMessage
    Frequency := model.Frequency
    Frequency_int64 := model.Frequency_int64 }

/-- The chain of `ShouldNotify` with its two elapsed-interval guards taken
out: the reminder-interval test inside the reminder block (guard 2a of the
spec) and the pending-record block (guard 5).  What is left reads neither the
clock, nor the notification record, nor the frequency. -/
def NotifierBase.ShouldNotifyWithoutIntervalGuards (n : NotifierBase)
    (context : EvalContext) : Bool := Id.run do
  if context.PrevAlertState == context.Rule.State && !n.SendReminder then
    return false
  if context.PrevAlertState == context.Rule.State && n.SendReminder then
    if context.Rule.State == AlertStateOK || context.Rule.State == AlertStatePending then
      return false
  if context.PrevAlertState == AlertStatePending && context.Rule.State == AlertStateOK then
    return false
  if context.PrevAlertState == AlertStateOK && context.Rule.State == AlertStatePending then
    return false
  if context.Rule.State == AlertStateOK && n.DisableResolveMessage then
    return false
  return true

/-! ## The call as a computation on the objects behind its pointers -/

/-- The objects that a call of `ShouldNotify` reaches through its pointer
arguments: the receiver, the evaluation context and the notification state. -/
structure CallState where
  n : NotifierBase
  context : EvalContext
  notiferState : AlertNotificationState

/-- The method `ShouldNotify` as a computation over the objects behind its
pointer arguments: every field access is a read of the state, and the result
comes with the state the call leaves behind.  `now₁` and `now₂` are the two
readings of `time.Now()`. -/
def ShouldNotifyCall (now₁ now₂ : Time) : StateM CallState Bool := do
  if (← get).context.PrevAlertState == (← get).context.Rule.State &&
      !(← get).n.SendReminder then
    return false
  if (← get).context.PrevAlertState == (← get).context.Rule.State &&
      (← get).n.SendReminder then
    let lastNotify := Time.Unix (← get).notiferState.UpdatedAt 0
    if (← get).notiferState.UpdatedAt != 0 &&
        (lastNotify.Add (← get).n.Frequency).After now₁ then
      return false
    if (← get).context.Rule.State == AlertStateOK ||
        (← get).context.Rule.State == AlertStatePending then
      return false
  if (← get).context.PrevAlertState == AlertStatePending &&
      (← get).context.Rule.State == AlertStateOK then
    return false
  if (← get).context.PrevAlertState == AlertStateOK &&
      (← get).context.Rule.State == AlertStatePending then
    return false
  if (← get).notiferState.State == AlertNotificationStatePending then
    let lastUpdated := Time.Unix (← get).notiferState.UpdatedAt 0
    if (lastUpdated.Add (1 * Minute)).After now₂ then
      return false
  if (← get).context.Rule.State == AlertStateOK && (← get).n.DisableResolveMessage then
    return false
  return true

/-! ## The chain as a list of guards on a clock -/

/-- The clock of the process: its readings, in the order in which `time.Now()`
is called. -/
abbrev Clock := Nat → Time

/-- Go `time.Now()`: the next reading of the clock.  The state is the number
of readings taken so far. -/
def timeNow (clock : Clock) : StateM Nat Time := do
  let k ← get
  set (k + 1)
  return clock k

/-- One guard of the chain in `ShouldNotify`: a piece of code that may read
the clock and either returns from the function with a decision or falls
through to what follows. -/
abbrev Guard :=
  Clock → NotifierBase → EvalContext → AlertNotificationState → StateM Nat (Option Bool)

/-- Guard 1, the first `if` of `ShouldNotify`: only notify on state change. -/
def guardNoStateChange : Guard := fun _ n context _ => do
  if context.PrevAlertState == context.Rule.State && !n.SendReminder then
    return some false
  return none

/-- Guard 2, the reminder block with its two inner returns.  Its condition
`UpdatedAt != 0 && ... After(time.Now())` reads the clock only when
`UpdatedAt` is not 0. -/
def guardReminder : Guard := fun clock n context notiferState => do
  if context.PrevAlertState == context.Rule.State && n.SendReminder then
    let lastNotify := Time.Unix notiferState.UpdatedAt 0
    if notiferState.UpdatedAt != 0 then
      if (lastNotify.Add n.Frequency).After (← timeNow clock) then
        return some false
    if context.Rule.State == AlertStateOK || context.Rule.State == AlertStatePending then
      return some false
  return none

/-- Guard 3: do not notify when we become OK for the first time. -/
def guardPendingToOk : Guard := fun _ _ context _ => do
  if context.PrevAlertState == AlertStatePending && context.Rule.State == AlertStateOK then
    return some false
  return none

/-- Guard 4: do not notify on OK to Pending. -/
def guardOkToPending : Guard := fun _ _ context _ => do
  if context.PrevAlertState == AlertStateOK && context.Rule.State == AlertStatePending then
    return some false
  return none

/-- Guard 5, the pending-record block, which reads the clock when the record
is Pending. -/
def guardPendingRecord : Guard := fun clock _ _ notiferState => do
  if notiferState.State == AlertNotificationStatePending then
    let lastUpdated := Time.Unix notiferState.UpdatedAt 0
    if (lastUpdated.Add (1 * Minute)).After (← timeNow clock) then
      return some false
  return none

/-- Guard 6: do not notify when state is OK if `DisableResolveMessage` is set. -/
def guardResolveDisabled : Guard := fun _ n context _ => do
  if context.Rule.State == AlertStateOK && n.DisableResolveMessage then
    return some false
  return none

/-- The six guards in the order of the source. -/
def shouldNotifyGuards : List Guard :=
  [guardNoStateChange, guardReminder, guardPendingToOk, guardOkToPending,
   guardPendingRecord, guardResolveDisabled]

/-- An early-exit chain: the guards run one after the other on the same clock,
the first guard that returns decides, and when every guard falls through the
chain ends in the final `return true`. -/
def runGuards (guards : List Guard) (clock : Clock) (n : NotifierBase)
    (context : EvalContext) (notiferState : AlertNotificationState) : StateM Nat Bool :=
  match guards with
  | [] => pure true
  | g :: rest => do
    match ← g clock n context notiferState with
    | some decision => return decision
    | none => runGuards rest clock n context notiferState

/-- The decision of an early-exit chain of guards, started on a fresh clock. -/
def decideWith (guards : List Guard) (clock : Clock) (n : NotifierBase)
    (context : EvalContext) (notiferState : AlertNotificationState) : Bool :=
  ((runGuards guards clock n context notiferState).run 0).1

/-! ## Decimal strings -/

/-- The spec's "base-10 signed representation of an int64", after the
documentation of Go's `strconv.ParseInt`: the string `s` is an optional sign
`+` or `-` followed by one or more decimal digits, the digits read in base 10
give the magnitude of `n`, the sign gives its sign, and `n` lies in the range
of `int64`.  Leading zeros and an explicit `+` are allowed. -/
def IsBase10Int64 (s : String) (n : Int) : Prop :=
  -(2 ^ 63 : Int) ≤ n ∧ n < 2 ^ 63 ∧
  ∃ (sign : List Char) (digits : List Nat),
    s.data = sign ++ digits.map Nat.digitChar ∧ digits ≠ [] ∧ (∀ d ∈ digits, d < 10) ∧
    ((sign = [] ∨ sign = ['+']) ∧ n = (Nat.ofDigits 10 digits.reverse : Nat) ∨
     sign = ['-'] ∧ n = -((Nat.ofDigits 10 digits.reverse : Nat) : Int))

/-! ## Time arithmetic without overflow -/

/-- Wrapping leaves an `int64` value as it is. -/
theorem wrapInt64_of_isInt64 (i : Int) (h : IsInt64 i) : wrapInt64 i = i := by
  unfold wrapInt64
  unfold IsInt64 at h
  omega

/-- `After` compares the instants: `t` is after `u` exactly when the exact
nanosecond count of `u` is below that of `t`. -/
theorem Time.After_iff (t u : Time) : t.After u = true ↔ u.unixNano < t.unixNano := by
  have ht := t.nsec_range
  have hu := u.nsec_range
  simp only [Time.After, Time.unixNano, Bool.or_eq_true, Bool.and_eq_true, decide_eq_true_eq]
  constructor
  · rintro (h | ⟨h1, h2⟩) <;> omega
  · intro h
    by_cases h1 : t.sec > u.sec
    · exact Or.inl h1
    · right; constructor <;> omega

/-- `After` as a decision on the exact nanosecond counts. -/
theorem Time.After_eq_decide (t u : Time) : t.After u = decide (u.unixNano < t.unixNano) := by
  cases h : t.After u
  · have := (Time.After_iff t u).not.mp (by simp [h])
    simp [this]
  · have := (Time.After_iff t u).mp h
    simp [this]

/-- No instant of a `Time` lies beyond the last nanosecond that the seconds
counter can hold. -/
theorem Time.unixNano_le (t : Time) :
    t.unixNano ≤ (9223372036854775807 - unixToInternal) * 1000000000 + 999999999 := by
  have ht := t.nsec_range
  have hs := t.sec_int64
  unfold IsInt64 at hs
  unfold Time.unixNano unixToInternal
  omega

/-- `addSec` adds exactly when the sum is an `int64`. -/
theorem addSec_exact (sec d : Int) (h : IsInt64 (sec + d)) : addSec sec d = sec + d := by
  unfold addSec
  simp only [wrapInt64_of_isInt64 _ h]
  by_cases hd : d > 0
  · have : sec + d > sec := by omega
    simp [hd, this]
  · have : ¬ (sec + d > sec) := by omega
    simp [hd, this]

/-- `Add` moves the instant by exactly `d` when the seconds counter does not
overflow. -/
theorem Time.unixNano_Add (t : Time) (d : Duration)
    (h : IsInt64 (t.sec + (t.nsec + d) / 1000000000)) :
    (t.Add d).unixNano = t.unixNano + d := by
  have ht := t.nsec_range
  unfold Time.Add
  simp only
  split
  · rename_i h1
    have hsec : t.sec + (truncDiv d 1000000000 + 1) =
        t.sec + (t.nsec + d) / 1000000000 := by
      simp only [truncMod, truncDiv] at h1 ⊢
      split at h1 <;> omega
    rw [← hsec] at h
    simp only [Time.unixNano, addSec_exact _ _ h, truncMod]
    omega
  · split
    · rename_i h1 h2
      have hsec : t.sec + (truncDiv d 1000000000 - 1) =
          t.sec + (t.nsec + d) / 1000000000 := by
        simp only [truncMod, truncDiv] at h1 h2 ⊢
        split at h1 <;> omega
      rw [← hsec] at h
      simp only [Time.unixNano, addSec_exact _ _ h, truncMod]
      omega
    · rename_i h1 h2
      have hsec : t.sec + truncDiv d 1000000000 = t.sec + (t.nsec + d) / 1000000000 := by
        simp only [truncMod, truncDiv] at h1 h2 ⊢
        split at h1 <;> omega
      rw [← hsec] at h
      simp only [Time.unixNano, addSec_exact _ _ h, truncMod]
      omega

/-- `time.Unix(sec, 0).Add(d)` is the instant `sec` seconds and `d`
nanoseconds after the Unix epoch when its additions do not overflow. -/
theorem Time.unixNano_Unix_Add (sec : Int) (d : Duration) (hsec : IsInt64 sec)
    (hd : IsInt64 d) (hfits : UnixAddFits sec d) :
    ((Time.Unix sec 0).Add d).unixNano = sec * Second + d := by
  obtain ⟨h1, h2⟩ := hfits
  have hU : IsInt64 (sec + unixToInternal) := by
    unfold IsInt64 unixToInternal at *
    omega
  have hsec' : (Time.Unix sec 0).sec = sec + unixToInternal := by
    simp [Time.Unix, wrapInt64_of_isInt64 _ hU]
  have hnsec' : (Time.Unix sec 0).nsec = 0 := by
    simp [Time.Unix]
  rw [Time.unixNano_Add]
  · simp only [Time.unixNano, hsec', hnsec', Second]
    omega
  · rw [hsec', hnsec']
    unfold IsInt64 unixToInternal at *
    omega

/-- The test of an interval guard, `time.Unix(sec, 0).Add(d).After(now)`, is
the comparison `now < sec + d` of the spec when its additions do not
overflow. -/
theorem After_Unix_Add (sec : Int) (d : Duration) (now : Time) (hsec : IsInt64 sec)
    (hd : IsInt64 d) (hfits : UnixAddFits sec d) :
    ((Time.Unix sec 0).Add d).After now = decide (now.unixNano < sec * Second + d) := by
  rw [Time.After_eq_decide, Time.unixNano_Unix_Add sec d hsec hd hfits]

/-- An interval that has elapsed at a clock value fits the seconds counter:
from `sec + d ≤ now` and `sec + d' ≤ now` for a non-negative `d'`, the
additions behind `time.Unix(sec, 0).Add(d)` do not overflow. -/
theorem UnixAddFits_of_le (sec : Int) (d d' : Duration) (now : Time)
    (hd' : 0 ≤ d') (h : sec * Second + d ≤ now.unixNano)
    (h' : sec * Second + d' ≤ now.unixNano) : UnixAddFits sec d := by
  have hnow := now.unixNano_le
  have hd'' : (0 : Int) ≤ d' := hd'
  unfold UnixAddFits unixToInternal Second at *
  constructor <;> omega

/-! ## Unfolding lemmas -/

/-- The early-exit chain of `ShouldNotifyClock` as one boolean expression: the
result is true exactly when no guard fires. -/
theorem ShouldNotifyClock_eq (n : NotifierBase) (context : EvalContext)
    (notiferState : AlertNotificationState) (now₁ now₂ : Time) :
    n.ShouldNotifyClock context notiferState now₁ now₂ =
      (!(context.PrevAlertState == context.Rule.State && !n.SendReminder) &&
       !(context.PrevAlertState == context.Rule.State && n.SendReminder &&
          (notiferState.UpdatedAt != 0 &&
            ((Time.Unix notiferState.UpdatedAt 0).Add n.Frequency).After now₁)) &&
       !(context.PrevAlertState == context.Rule.State && n.SendReminder &&
          (context.Rule.State == AlertStateOK || context.Rule.State == AlertStatePending)) &&
       !(context.PrevAlertState == AlertStatePending && context.Rule.State == AlertStateOK) &&
       !(context.PrevAlertState == AlertStateOK && context.Rule.State == AlertStatePending) &&
       !(notiferState.State == AlertNotificationStatePending &&
          ((Time.Unix notiferState.UpdatedAt 0).Add (1 * Minute)).After now₂) &&
       !(context.Rule.State == AlertStateOK && n.DisableResolveMessage)) := by
  simp only [NotifierBase.ShouldNotifyClock, Id.run]
  cases (context.PrevAlertState == context.Rule.State) <;>
  cases n.SendReminder <;> try rfl
  all_goals
    cases (notiferState.UpdatedAt != 0) <;>
    cases ((Time.Unix notiferState.UpdatedAt 0).Add n.Frequency).After now₁ <;> try rfl
  all_goals
    cases (context.Rule.State == AlertStateOK) <;>
    cases (context.Rule.State == AlertStatePending) <;> try rfl
  all_goals
    cases (context.PrevAlertState == AlertStatePending) <;>
    cases (context.PrevAlertState == AlertStateOK) <;> try rfl
  all_goals
    cases (notiferState.State == AlertNotificationStatePending) <;>
    cases ((Time.Unix notiferState.UpdatedAt 0).Add (1 * Minute)).After now₂ <;> try rfl
  all_goals
    cases n.DisableResolveMessage <;> rfl

/-- The decision in the terms of the spec: when the additions of the interval
guards that are reached do not overflow, `ShouldNotify` is the conjunction of
the negated guards, with the two interval tests as comparisons of exact
instants. -/
theorem ShouldNotify_eq_of_fits (n : NotifierBase) (context : EvalContext)
    (notiferState : AlertNotificationState) (now : Time)
    (hReminderFits : context.PrevAlertState = context.Rule.State → n.SendReminder = true →
      notiferState.UpdatedAt ≠ 0 → UnixAddFits notiferState.UpdatedAt n.Frequency)
    (hPendingFits : notiferState.State = AlertNotificationStatePending →
      UnixAddFits notiferState.UpdatedAt Minute) :
    n.ShouldNotify context notiferState now =
      (!(context.PrevAlertState == context.Rule.State && !n.SendReminder) &&
       !(context.PrevAlertState == context.Rule.State && n.SendReminder &&
          (notiferState.UpdatedAt != 0 &&
            decide (now.unixNano < notiferState.UpdatedAt * Second + n.Frequency))) &&
       !(context.PrevAlertState == context.Rule.State && n.SendReminder &&
          (context.Rule.State == AlertStateOK || context.Rule.State == AlertStatePending)) &&
       !(context.PrevAlertState == AlertStatePending && context.Rule.State == AlertStateOK) &&
       !(context.PrevAlertState == AlertStateOK && context.Rule.State == AlertStatePending) &&
       !(notiferState.State == AlertNotificationStatePending &&
          decide (now.unixNano < notiferState.UpdatedAt * Second + Minute)) &&
       !(context.Rule.State == AlertStateOK && n.DisableResolveMessage)) := by
  rw [NotifierBase.ShouldNotify, ShouldNotifyClock_eq, one_mul]
  have hA : (context.PrevAlertState == context.Rule.State && n.SendReminder &&
        (notiferState.UpdatedAt != 0 &&
          ((Time.Unix notiferState.UpdatedAt 0).Add n.Frequency).After now)) =
      (context.PrevAlertState == context.Rule.State && n.SendReminder &&
        (notiferState.UpdatedAt != 0 &&
          decide (now.unixNano < notiferState.UpdatedAt * Second + n.Frequency))) := by
    cases h1 : (context.PrevAlertState == context.Rule.State)
    · rfl
    · cases h2 : n.SendReminder
      · rfl
      · by_cases h3 : notiferState.UpdatedAt = 0
        · simp [h3]
        · rw [After_Unix_Add _ _ now notiferState.UpdatedAt_int64 n.Frequency_int64
            (hReminderFits (eq_of_beq h1) h2 h3)]
  have hB : (notiferState.State == AlertNotificationStatePending &&
        ((Time.Unix notiferState.UpdatedAt 0).Add Minute).After now) =
      (notiferState.State == AlertNotificationStatePending &&
        decide (now.unixNano < notiferState.UpdatedAt * Second + Minute)) := by
    cases h : (notiferState.State == AlertNotificationStatePending)
    · rfl
    · rw [After_Unix_Add _ _ now notiferState.UpdatedAt_int64 (by decide)
        (hPendingFits (eq_of_beq h))]
  rw [hA, hB]

/-- Running a bind of the state monad: the second computation runs on the
result and the state left by the first. -/
theorem StateM_bind_apply {σ α β : Type} (x : StateT σ Id α) (f : α → StateT σ Id β)
    (s : σ) : StateT.bind x f s = f (x s).1 (x s).2 := rfl

/-- Reading the state returns it and leaves it in place. -/
theorem StateM_get_apply {σ : Type} (s : σ) : (StateT.get : StateT σ Id σ) s = (s, s) := rfl

/-- Returning a value leaves the state in place. -/
theorem StateM_pure_apply {σ α : Type} (a : α) (s : σ) :
    (StateT.pure a : StateT σ Id α) s = (a, s) := rfl

/-- Running a conditional runs the chosen branch. -/
theorem StateM_ite_apply {σ α : Type} (c : Prop) [Decidable c] (x y : StateT σ Id α)
    (s : σ) : (if c then x else y) s = if c then x s else y s := by
  split <;> rfl

/-- The call computes the decision of `ShouldNotifyClock` on the objects it is
given and hands them back as they were. -/
theorem ShouldNotifyCall_eq (now₁ now₂ : Time) (σ : CallState) :
    ShouldNotifyCall now₁ now₂ σ =
      (σ.n.ShouldNotifyClock σ.context σ.notiferState now₁ now₂, σ) := by
  rw [ShouldNotifyClock_eq]
  simp only [ShouldNotifyCall, bind, get, getThe, MonadStateOf.get, pure,
    StateM_bind_apply, StateM_get_apply, StateM_pure_apply, StateM_ite_apply]
  cases (σ.context.PrevAlertState == σ.context.Rule.State) <;>
  cases σ.n.SendReminder <;> try rfl
  all_goals
    cases (σ.notiferState.UpdatedAt != 0) <;>
    cases ((Time.Unix σ.notiferState.UpdatedAt 0).Add σ.n.Frequency).After now₁ <;>
    try rfl
  all_goals
    cases (σ.context.Rule.State == AlertStateOK) <;>
    cases (σ.context.Rule.State == AlertStatePending) <;> try rfl
  all_goals
    cases (σ.context.PrevAlertState == AlertStatePending) <;>
    cases (σ.context.PrevAlertState == AlertStateOK) <;> try rfl
  all_goals
    cases (σ.notiferState.State == AlertNotificationStatePending) <;>
    cases ((Time.Unix σ.notiferState.UpdatedAt 0).Add (1 * Minute)).After now₂ <;> try rfl
  all_goals
    cases σ.n.DisableResolveMessage <;> rfl

/-- Running `time.Now()` returns the next reading and counts it. -/
theorem timeNow_apply (clock : Clock) (k : Nat) : timeNow clock k = (clock k, k + 1) := rfl

/-- The empty chain ends in `return true` and reads nothing. -/
theorem runGuards_nil (clock : Clock) (n : NotifierBase) (context : EvalContext)
    (notiferState : AlertNotificationState) (k : Nat) :
    runGuards [] clock n context notiferState k = (true, k) := rfl

/-- A chain runs its first guard and stops when that guard returns; otherwise
the rest runs on the clock as the first guard left it. -/
theorem runGuards_cons (g : Guard) (rest : List Guard) (clock : Clock) (n : NotifierBase)
    (context : EvalContext) (notiferState : AlertNotificationState) (k : Nat) :
    runGuards (g :: rest) clock n context notiferState k =
      match (g clock n context notiferState k).1 with
      | some decision => (decision, (g clock n context notiferState k).2)
      | none => runGuards rest clock n context notiferState (g clock n context notiferState k).2 := by
  simp only [runGuards, bind, StateM_bind_apply]
  cases (g clock n context notiferState k).1 <;> rfl

/-- Guard 1 reads no clock. -/
theorem guardNoStateChange_apply (clock : Clock) (n : NotifierBase) (context : EvalContext)
    (notiferState : AlertNotificationState) (k : Nat) :
    guardNoStateChange clock n context notiferState k =
      (if (context.PrevAlertState == context.Rule.State && !n.SendReminder) = true
        then some false else none, k) := by
  simp only [guardNoStateChange, bind, pure, StateM_bind_apply, StateM_pure_apply,
    StateM_ite_apply]
  split <;> rfl

/-- Guard 2 takes one reading of the clock when it gets to its interval test. -/
theorem guardReminder_apply (clock : Clock) (n : NotifierBase) (context : EvalContext)
    (notiferState : AlertNotificationState) (k : Nat) :
    guardReminder clock n context notiferState k =
      if (context.PrevAlertState == context.Rule.State && n.SendReminder) = true then
        if (notiferState.UpdatedAt != 0) = true then
          if ((Time.Unix notiferState.UpdatedAt 0).Add n.Frequency).After (clock k) = true then
            (some false, k + 1)
          else if (context.Rule.State == AlertStateOK ||
              context.Rule.State == AlertStatePending) = true then (some false, k + 1)
          else (none, k + 1)
        else if (context.Rule.State == AlertStateOK ||
            context.Rule.State == AlertStatePending) = true then (some false, k)
        else (none, k)
      else (none, k) := by
  simp only [guardReminder, bind, pure, StateM_bind_apply, StateM_pure_apply,
    StateM_ite_apply, timeNow_apply]

/-- Guard 3 reads no clock. -/
theorem guardPendingToOk_apply (clock : Clock) (n : NotifierBase) (context : EvalContext)
    (notiferState : AlertNotificationState) (k : Nat) :
    guardPendingToOk clock n context notiferState k =
      (if (context.PrevAlertState == AlertStatePending &&
          context.Rule.State == AlertStateOK) = true then some false else none, k) := by
  simp only [guardPendingToOk, bind, pure, StateM_bind_apply, StateM_pure_apply,
    StateM_ite_apply]
  split <;> rfl

/-- Guard 4 reads no clock. -/
theorem guardOkToPending_apply (clock : Clock) (n : NotifierBase) (context : EvalContext)
    (notiferState : AlertNotificationState) (k : Nat) :
    guardOkToPending clock n context notiferState k =
      (if (context.PrevAlertState == AlertStateOK &&
          context.Rule.State == AlertStatePending) = true then some false else none, k) := by
  simp only [guardOkToPending, bind, pure, StateM_bind_apply, StateM_pure_apply,
    StateM_ite_apply]
  split <;> rfl

/-- Guard 5 takes one reading of the clock when the record is Pending. -/
theorem guardPendingRecord_apply (clock : Clock) (n : NotifierBase) (context : EvalContext)
    (notiferState : AlertNotificationState) (k : Nat) :
    guardPendingRecord clock n context notiferState k =
      if (notiferState.State == AlertNotificationStatePending) = true then
        if ((Time.Unix notiferState.UpdatedAt 0).Add (1 * Minute)).After (clock k) = true then
          (some false, k + 1)
        else (none, k + 1)
      else (none, k) := by
  simp only [guardPendingRecord, bind, pure, StateM_bind_apply, StateM_pure_apply,
    StateM_ite_apply, timeNow_apply]

/-- Guard 6 reads no clock. -/
theorem guardResolveDisabled_apply (clock : Clock) (n : NotifierBase) (context : EvalContext)
    (notiferState : AlertNotificationState) (k : Nat) :
    guardResolveDisabled clock n context notiferState k =
      (if (context.Rule.State == AlertStateOK && n.DisableResolveMessage) = true
        then some false else none, k) := by
  simp only [guardResolveDisabled, bind, pure, StateM_bind_apply, StateM_pure_apply,
    StateM_ite_apply]
  split <;> rfl

/-- The six guards in source order, run on a clock, decide as the source does
with the readings it takes: the reminder block takes the first reading when
it gets to its interval test, and the pending-record block takes the next
one. -/
theorem decideWith_shouldNotifyGuards (clock : Clock) (n : NotifierBase)
    (context : EvalContext) (notiferState : AlertNotificationState) :
    decideWith shouldNotifyGuards clock n context notiferState =
      n.ShouldNotifyClock context notiferState (clock 0)
        (clock (if (context.PrevAlertState == context.Rule.State && n.SendReminder &&
          notiferState.UpdatedAt != 0) = true then 1 else 0)) := by
  rw [ShouldNotifyClock_eq]
  simp only [decideWith, shouldNotifyGuards, StateT.run, runGuards_cons, runGuards_nil,
    guardNoStateChange_apply, guardReminder_apply, guardPendingToOk_apply,
    guardOkToPending_apply, guardPendingRecord_apply, guardResolveDisabled_apply]
  cases (context.PrevAlertState == context.Rule.State) <;>
  cases n.SendReminder <;>
  cases (notiferState.UpdatedAt != 0) <;>
  cases (context.Rule.State == AlertStateOK) <;>
  cases (context.Rule.State == AlertStatePending) <;>
  cases (context.PrevAlertState == AlertStatePending) <;>
  cases (context.PrevAlertState == AlertStateOK) <;>
  cases (notiferState.State == AlertNotificationStatePending) <;>
  cases n.DisableResolveMessage <;>
  simp <;>
  split_ifs <;> simp_all

/-! ## Lemmas on the settings accessors and on `ParseInt` -/

/-- The two error messages of the accessors differ for every key: they start
with different letters. -/
theorem invalid_ne_missing (key : String) :
    ("Invalid " ++ key ++ " property in settings") ≠
      ("Could not find " ++ key ++ " property in settings") := by
  intro h
  have h' := congrArg String.data h
  simp at h'

/-- The digit loop reads the character of a digit back as that digit. -/
theorem digitVal_digitChar (d : Nat) (hd : d < 10) : digitVal (Nat.digitChar d) = some d := by
  interval_cases d <;> rfl

/-- A character that the digit loop accepts is the character of its digit. -/
theorem digitVal_eq_some (c : Char) (d : Nat) (h : digitVal c = some d) :
    d < 10 ∧ c = Nat.digitChar d := by
  unfold digitVal at h
  split at h
  · rename_i hc
    obtain ⟨h0, h9⟩ := hc
    have h0' : 48 ≤ c.toNat := h0
    have h9' : c.toNat ≤ 57 := h9
    simp only [Option.some.injEq] at h
    subst h
    rw [← Char.ofNat_toNat c]
    generalize c.toNat = k at h0' h9'
    interval_cases k <;> exact ⟨by decide, by decide⟩
  · simp at h

/-- A digit character is no sign. -/
theorem digitChar_ne_sign (d : Nat) (hd : d < 10) :
    (Nat.digitChar d == '+' || Nat.digitChar d == '-') = false := by
  interval_cases d <;> rfl

/-- The digit loop on a run of digit characters computes their value in base
10, continuing from the accumulator. -/
theorem parseDigits_map_digitChar (ds : List Nat) (hds : ∀ d ∈ ds, d < 10) (acc : Nat) :
    parseDigits (ds.map Nat.digitChar) acc =
      some (acc * 10 ^ ds.length + Nat.ofDigits 10 ds.reverse) := by
  induction ds generalizing acc with
  | nil => simp [parseDigits]
  | cons d t ih =>
    have hd : d < 10 := hds d (List.mem_cons_self _ _)
    have ht : ∀ x ∈ t, x < 10 := fun x hx => hds x (List.mem_cons_of_mem _ hx)
    simp only [List.map_cons, parseDigits, digitVal_digitChar d hd, ih ht, List.reverse_cons,
      Nat.ofDigits_append, Nat.ofDigits_singleton, List.length_reverse, List.length_cons,
      Option.some.injEq]
    ring

/-- When the digit loop succeeds, its input is a run of digit characters. -/
theorem parseDigits_eq_some (cs : List Char) (acc v : Nat) (h : parseDigits cs acc = some v) :
    ∃ ds : List Nat, cs = ds.map Nat.digitChar ∧ ∀ d ∈ ds, d < 10 := by
  induction cs generalizing acc with
  | nil => exact ⟨[], rfl, by simp⟩
  | cons c t ih =>
    unfold parseDigits at h
    cases hc : digitVal c with
    | none => simp [hc] at h
    | some d =>
      simp only [hc] at h
      obtain ⟨ds, hds, hlt⟩ := ih _ h
      obtain ⟨hd, hcd⟩ := digitVal_eq_some c d hc
      refine ⟨d :: ds, by simp [hds, hcd], ?_⟩
      intro x hx
      rcases List.mem_cons.mp hx with rfl | hx
      · exact hd
      · exact hlt x hx

/-- When the digit loop succeeds from 0, its input is a run of digit characters
and the result is their value in base 10. -/
theorem parseDigits_zero_eq_some (cs : List Char) (un : Nat)
    (h : parseDigits cs 0 = some un) :
    ∃ ds : List Nat, cs = ds.map Nat.digitChar ∧ (∀ d ∈ ds, d < 10) ∧
      un = Nat.ofDigits 10 ds.reverse := by
  obtain ⟨ds, hcs, hlt⟩ := parseDigits_eq_some cs 0 un h
  refine ⟨ds, hcs, hlt, ?_⟩
  rw [hcs, parseDigits_map_digitChar ds hlt 0] at h
  simpa using h.symm

/-- What `ParseInt` accepts is a base-10 signed representation of its result. -/
theorem ParseInt_some_imp (s : String) (n : Int) (h : ParseInt s = some n) :
    IsBase10Int64 s n := by
  unfold ParseInt at h
  cases hs : s.data with
  | nil => simp [hs] at h
  | cons c cs =>
    simp only [hs] at h
    by_cases hminus : c = '-'
    · subst hminus
      simp at h
      obtain ⟨hne, h⟩ := h
      cases hp : parseDigits cs 0 with
      | none => simp [hp] at h
      | some un =>
        simp only [hp] at h
        split at h
        · simp at h
        · rename_i hrange
          simp only [Option.some.injEq] at h
          obtain ⟨ds, hcs, hlt, hun⟩ := parseDigits_zero_eq_some cs un hp
          refine ⟨by omega, by omega, ['-'], ds, by simp [hs, hcs], ?_, hlt, Or.inr ⟨rfl, ?_⟩⟩
          · rintro rfl; simp at hcs; exact hne hcs
          · rw [← hun, ← h]
    · by_cases hplus : c = '+'
      · subst hplus
        simp at h
        obtain ⟨hne, h⟩ := h
        cases hp : parseDigits cs 0 with
        | none => simp [hp] at h
        | some un =>
          simp only [hp] at h
          split at h
          · simp at h
          · rename_i hrange
            simp only [Option.some.injEq] at h
            obtain ⟨ds, hcs, hlt, hun⟩ := parseDigits_zero_eq_some cs un hp
            refine ⟨by omega, by omega, ['+'], ds, by simp [hs, hcs], ?_, hlt,
              Or.inl ⟨Or.inr rfl, ?_⟩⟩
            · rintro rfl; simp at hcs; exact hne hcs
            · rw [← hun, ← h]
      · simp [hminus, hplus] at h
        cases hp : parseDigits (c :: cs) 0 with
        | none => simp [hp] at h
        | some un =>
          simp only [hp] at h
          split at h
          · simp at h
          · rename_i hrange
            simp only [Option.some.injEq] at h
            obtain ⟨ds, hcs, hlt, hun⟩ := parseDigits_zero_eq_some (c :: cs) un hp
            refine ⟨by omega, by omega, [], ds, by simp [hs, hcs], ?_, hlt,
              Or.inl ⟨Or.inl rfl, ?_⟩⟩
            · rintro rfl; simp at hcs
            · rw [← hun, ← h]

/-- `ParseInt` accepts every base-10 signed representation of an int64. -/
theorem ParseInt_of_isBase10 (s : String) (n : Int) (h : IsBase10Int64 s n) :
    ParseInt s = some n := by
  obtain ⟨hlo, hhi, sign, ds, hdata, hne, hlt, hval⟩ := h
  have hparse := parseDigits_map_digitChar ds hlt 0
  simp only [zero_mul, zero_add] at hparse
  obtain ⟨d, t, rfl⟩ := List.exists_cons_of_ne_nil hne
  have hd : d < 10 := hlt d (List.mem_cons_self _ _)
  have hsign := digitChar_ne_sign d hd
  simp only [Bool.or_eq_false_iff, beq_eq_false_iff_ne, ne_eq] at hsign
  simp only [List.map_cons] at hparse hdata
  generalize Nat.ofDigits 10 (d :: t).reverse = un at hparse hval
  unfold ParseInt
  rcases hval with ⟨hsign' | hsign', hn⟩ | ⟨hsign', hn⟩
  · subst hsign'
    simp only [List.nil_append] at hdata
    have hrange : ¬ (9223372036854775808 ≤ un) := by omega
    simp [hdata, hsign.1, hsign.2, hparse, hrange, hn]
  · subst hsign'
    simp only [List.singleton_append] at hdata
    have hrange : ¬ (9223372036854775808 ≤ un) := by omega
    simp [hdata, hparse, hrange, hn]
  · subst hsign'
    simp only [List.singleton_append] at hdata
    have hrange : ¬ (9223372036854775808 < un) := by omega
    simp [hdata, hparse, hrange, hn]

/-- `ParseInt` returns `n` exactly on the base-10 signed representations of the
int64 `n`. -/
theorem ParseInt_eq_some_iff (s : String) (n : Int) :
    ParseInt s = some n ↔ IsBase10Int64 s n :=
  ⟨ParseInt_some_imp s n, ParseInt_of_isBase10 s n⟩

/-- The digit loop reads back what the digit printer of the core library
prints in base 10. -/
theorem parseDigits_toDigitsCore (fuel n : Nat) (ds : List Char) (h : n < fuel) :
    parseDigits (Nat.toDigitsCore 10 fuel n ds) 0 = parseDigits ds n := by
  induction fuel generalizing n ds with
  | zero => omega
  | succ fuel ih =>
    have hmod : digitVal (Nat.digitChar (n % 10)) = some (n % 10) :=
      digitVal_digitChar _ (Nat.mod_lt _ (by decide))
    simp only [Nat.toDigitsCore]
    split
    · rename_i hdiv
      have hn : n % 10 = n := by omega
      rw [hn] at hmod
      simp [parseDigits, hn, hmod]
    · rename_i hdiv
      rw [ih (n / 10) _ (by omega)]
      simp only [parseDigits, hmod]
      congr 1
      omega

/-- The core library prints a natural number as a non-empty run of digit
characters whose value in base 10 is the number. -/
theorem toDigits_digits (m : Nat) :
    ∃ ds : List Nat, Nat.toDigits 10 m = ds.map Nat.digitChar ∧ ds ≠ [] ∧
      (∀ d ∈ ds, d < 10) ∧ m = Nat.ofDigits 10 ds.reverse := by
  have hp : parseDigits (Nat.toDigits 10 m) 0 = some m := by
    unfold Nat.toDigits
    rw [parseDigits_toDigitsCore (m + 1) m [] (by omega)]
    rfl
  obtain ⟨ds, hds, hlt, hm⟩ := parseDigits_zero_eq_some _ _ hp
  refine ⟨ds, hds, ?_, hlt, hm⟩
  rintro rfl
  have hlen : (Nat.toDigits 10 m).length = 0 := by rw [hds]; rfl
  unfold Nat.toDigits Nat.toDigitsCore at hlen
  by_cases hdiv : m / 10 = 0
  · simp [hdiv] at hlen
  · simp only [hdiv, if_false] at hlen
    rw [Nat.toDigitsCore_lens_eq] at hlen
    omega

/-- `ParseInt` reads the decimal string of every int64 back as that number. -/
theorem ParseInt_toString (n : Int) (hlo : -(2 ^ 63 : Int) ≤ n) (hhi : n < 2 ^ 63) :
    ParseInt (toString n) = some n := by
  apply ParseInt_of_isBase10
  refine ⟨hlo, hhi, ?_⟩
  cases n with
  | ofNat m =>
    obtain ⟨ds, hds, hne, hlt, hm⟩ := toDigits_digits m
    refine ⟨[], ds, ?_, hne, hlt, Or.inl ⟨Or.inl rfl, ?_⟩⟩
    · rw [List.nil_append, ← hds]; rfl
    · rw [← hm]; rfl
  | negSucc m =>
    obtain ⟨ds, hds, hne, hlt, hm⟩ := toDigits_digits (m + 1)
    refine ⟨['-'], ds, ?_, hne, hlt, Or.inr ⟨rfl, ?_⟩⟩
    · rw [← hds]; rfl
    · rw [← hm]; rfl

/-- `GetSettingBool` returns no error, the missing-key error or the
invalid-value error. -/
theorem GetSettingBool_error_cases (model : AlertNotification) (key : String) (args : List Bool) :
    (GetSettingBool model key args).2 = none ∨
    (GetSettingBool model key args).2 =
      some ⟨"Could not find " ++ key ++ " property in settings"⟩ ∨
    (GetSettingBool model key args).2 =
      some ⟨"Invalid " ++ key ++ " property in settings"⟩ := by
  cases hget : model.Settings.CheckGet key with
  | none => by_cases hlen : args.length = 1 <;> simp [GetSettingBool, hget, Id.run, hlen]
  | some val =>
    cases val <;> simp [GetSettingBool, hget, Id.run, Json.Bool, Json.String, Json.Int64]

/-- `GetSettingString` returns no error, the missing-key error or the
invalid-value error. -/
theorem GetSettingString_error_cases (model : AlertNotification) (key : String)
    (args : List String) :
    (GetSettingString model key args).2 = none ∨
    (GetSettingString model key args).2 =
      some ⟨"Could not find " ++ key ++ " property in settings"⟩ ∨
    (GetSettingString model key args).2 =
      some ⟨"Invalid " ++ key ++ " property in settings"⟩ := by
  cases hget : model.Settings.CheckGet key with
  | none => by_cases hlen : args.length = 1 <;> simp [GetSettingString, hget, Id.run, hlen]
  | some val =>
    cases val <;> simp [GetSettingString, hget, Id.run, Json.String]

/-- `GetSettingInt64` returns no error, the missing-key error or the
invalid-value error. -/
theorem GetSettingInt64_error_cases (model : AlertNotification) (key : String)
    (args : List Int) :
    (GetSettingInt64 model key args).2 = none ∨
    (GetSettingInt64 model key args).2 =
      some ⟨"Could not find " ++ key ++ " property in settings"⟩ ∨
    (GetSettingInt64 model key args).2 =
      some ⟨"Invalid " ++ key ++ " property in settings"⟩ := by
  cases hget : model.Settings.CheckGet key with
  | none => by_cases hlen : args.length = 1 <;> simp [GetSettingInt64, hget, Id.run, hlen]
  | some val =>
    cases val <;> simp [GetSettingInt64, hget, Id.run, Json.String, Json.Int64]
    split <;> simp

/-! ## The decision `ShouldNotify` -/

/-- C1, as stated, fails: with `UpdatedAt` at the largest `int64`, a steady
Alerting state with reminders on is dispatched although condition (2a) holds
(`UpdatedAt` is not 0 and `UpdatedAt + Frequency` is later than `now`), because
`time.Unix` wraps around to an instant in the distant past. -/
theorem shouldNotify_iff_counterexample :
    (NotifierBase.mk "ops" "email" 1 false true true false Hour).ShouldNotify
      ⟨AlertStateAlerting, ⟨AlertStateAlerting⟩⟩
      ⟨AlertNotificationStateCompleted, 9223372036854775807, by decide⟩
      (Time.Unix 1541325600 0) = true ∧
    (9223372036854775807 : Int) ≠ 0 ∧
    (Time.Unix 1541325600 0).unixNano < 9223372036854775807 * Second + Hour := by
  decide

/-- C1, amended.  When the `int64` additions of the interval guards that are
reached do not overflow (those of `time.Unix(UpdatedAt, 0).Add(Frequency)`
when the state is unchanged, reminders are on and `UpdatedAt` is not 0; those
of `time.Unix(UpdatedAt, 0).Add(1 minute)` when the record is Pending),
`ShouldNotify` returns true if and only if none of the six suppression
conditions holds: (1) no state change and reminders off; (2a) no state change,
reminders on, a non-zero `UpdatedAt` and `UpdatedAt + Frequency` strictly later
than `now`; (2b) no state change, reminders on and the current state Ok or
Pending; (3) Pending to Ok; (4) Ok to Pending; (5) a Pending record whose
`UpdatedAt + 1 minute` is strictly later than `now`; (6) current state Ok with
resolve messages disabled. -/
theorem shouldNotify_iff_no_suppression (n : NotifierBase) (context : EvalContext)
    (notiferState : AlertNotificationState) (now : Time)
    (hReminderFits : context.PrevAlertState = context.Rule.State → n.SendReminder = true →
      notiferState.UpdatedAt ≠ 0 → UnixAddFits notiferState.UpdatedAt n.Frequency)
    (hPendingFits : notiferState.State = AlertNotificationStatePending →
      UnixAddFits notiferState.UpdatedAt Minute) :
    n.ShouldNotify context notiferState now = true ↔
      ¬ (context.PrevAlertState = context.Rule.State ∧ n.SendReminder = false) ∧
      ¬ (context.PrevAlertState = context.Rule.State ∧ n.SendReminder = true ∧
          notiferState.UpdatedAt ≠ 0 ∧
          now.unixNano < notiferState.UpdatedAt * Second + n.Frequency) ∧
      ¬ (context.PrevAlertState = context.Rule.State ∧ n.SendReminder = true ∧
          (context.Rule.State = AlertStateOK ∨ context.Rule.State = AlertStatePending)) ∧
      ¬ (context.PrevAlertState = AlertStatePending ∧ context.Rule.State = AlertStateOK) ∧
      ¬ (context.PrevAlertState = AlertStateOK ∧ context.Rule.State = AlertStatePending) ∧
      ¬ (notiferState.State = AlertNotificationStatePending ∧
          now.unixNano < notiferState.UpdatedAt * Second + Minute) ∧
      ¬ (context.Rule.State = AlertStateOK ∧ n.DisableResolveMessage = true) := by
  rw [ShouldNotify_eq_of_fits n context notiferState now hReminderFits hPendingFits]
  clear hReminderFits hPendingFits
  by_cases h1 : context.PrevAlertState = context.Rule.State <;>
  cases h2 : n.SendReminder <;>
  by_cases h3 : context.Rule.State = AlertStateOK <;>
  by_cases h4 : context.Rule.State = AlertStatePending <;>
  cases h5 : n.DisableResolveMessage <;>
  simp [h1, h2, h3, h4, h5] <;> tauto

/-- A steady Alerting state with reminders on, a Pending record and a
frequency of one hour, two hours after the last update: no condition holds and
the notification is dispatched. -/
theorem shouldNotify_iff_no_suppression_witness :
    (UnixAddFits 1541325600 Hour ∧ UnixAddFits 1541325600 Minute) ∧
    (NotifierBase.mk "ops" "email" 1 false true true false Hour).ShouldNotify
      ⟨AlertStateAlerting, ⟨AlertStateAlerting⟩⟩
      ⟨AlertNotificationStatePending, 1541325600, by decide⟩
      ((Time.Unix 1541325600 0).Add (2 * Hour)) = true :=
  ⟨⟨⟨by decide, by decide⟩, ⟨by decide, by decide⟩⟩,
   (shouldNotify_iff_no_suppression
      (NotifierBase.mk "ops" "email" 1 false true true false Hour)
      ⟨AlertStateAlerting, ⟨AlertStateAlerting⟩⟩
      ⟨AlertNotificationStatePending, 1541325600, by decide⟩
      ((Time.Unix 1541325600 0).Add (2 * Hour))
      (fun _ _ _ => ⟨by decide, by decide⟩) (fun _ => ⟨by decide, by decide⟩)).mpr
    (by decide)⟩

/-- C2. Reminder dispatch: when the state stays at a state `s` other than Ok
and Pending, reminders are on, and `now` is before neither
`UpdatedAt + Frequency` nor `UpdatedAt + 1 minute`, `ShouldNotify` returns
true, whatever the record state and `DisableResolveMessage` are. -/
theorem reminder_dispatch (n : NotifierBase) (context : EvalContext)
    (notiferState : AlertNotificationState) (now : Time) (s : AlertStateType)
    (hOk : s ≠ AlertStateOK) (hPending : s ≠ AlertStatePending)
    (hPrev : context.PrevAlertState = s) (hCur : context.Rule.State = s)
    (hReminder : n.SendReminder = true)
    (hFrequency : notiferState.UpdatedAt * Second + n.Frequency ≤ now.unixNano)
    (hMinute : notiferState.UpdatedAt * Second + Minute ≤ now.unixNano) :
    n.ShouldNotify context notiferState now = true := by
  have hFits : UnixAddFits notiferState.UpdatedAt n.Frequency :=
    UnixAddFits_of_le _ _ Minute now (by decide) hFrequency hMinute
  have hFits' : UnixAddFits notiferState.UpdatedAt Minute :=
    UnixAddFits_of_le _ _ Minute now (by decide) hMinute hMinute
  rw [ShouldNotify_eq_of_fits n context notiferState now (fun _ _ _ => hFits)
    (fun _ => hFits')]
  simp [hPrev, hCur, hReminder, hOk, hPending, not_lt.mpr hFrequency, not_lt.mpr hMinute]

/-- Scenario B: Alerting to Alerting, reminders on, a frequency of one hour and
a record updated two hours before `now`; the record is Pending and resolve
messages are disabled, neither of which matters. -/
theorem reminder_dispatch_witness :
    (AlertStateAlerting ≠ AlertStateOK ∧ AlertStateAlerting ≠ AlertStatePending ∧
      (1541325600 : Int) * Second + Hour ≤ ((Time.Unix 1541325600 0).Add (2 * Hour)).unixNano ∧
      (1541325600 : Int) * Second + Minute ≤ ((Time.Unix 1541325600 0).Add (2 * Hour)).unixNano) ∧
    (NotifierBase.mk "ops" "email" 1 false true true true Hour).ShouldNotify
      ⟨AlertStateAlerting, ⟨AlertStateAlerting⟩⟩ ⟨AlertNotificationStatePending, 1541325600, by decide⟩
      ((Time.Unix 1541325600 0).Add (2 * Hour)) = true :=
  ⟨by decide,
   reminder_dispatch (NotifierBase.mk "ops" "email" 1 false true true true Hour)
    ⟨AlertStateAlerting, ⟨AlertStateAlerting⟩⟩ ⟨AlertNotificationStatePending, 1541325600, by decide⟩
    ((Time.Unix 1541325600 0).Add (2 * Hour)) AlertStateAlerting
    (by decide) (by decide) rfl rfl rfl (by decide) (by decide)⟩

/-- C3. No state change without reminders: when the previous and the current
state are equal and `SendReminder` is false, `ShouldNotify` returns false. -/
theorem no_change_no_reminder (n : NotifierBase) (context : EvalContext)
    (notiferState : AlertNotificationState) (now : Time)
    (hSame : context.PrevAlertState = context.Rule.State)
    (hReminder : n.SendReminder = false) :
    n.ShouldNotify context notiferState now = false := by
  rw [NotifierBase.ShouldNotify, ShouldNotifyClock_eq]
  simp [hSame, hReminder]

/-- Scenario A: Alerting to Alerting with reminders off. -/
theorem no_change_no_reminder_witness :
    (NotifierBase.mk "ops" "email" 1 false true false false Hour).ShouldNotify
      ⟨AlertStateAlerting, ⟨AlertStateAlerting⟩⟩ ⟨AlertNotificationStateCompleted, 0, by decide⟩
      (Time.Unix 1541325600 0) = false :=
  no_change_no_reminder (NotifierBase.mk "ops" "email" 1 false true false false Hour)
    ⟨AlertStateAlerting, ⟨AlertStateAlerting⟩⟩ ⟨AlertNotificationStateCompleted, 0, by decide⟩
    (Time.Unix 1541325600 0) rfl rfl

/-- C4, as stated, fails: with `UpdatedAt` at the largest `int64` the reminder
is dispatched although `UpdatedAt + Frequency` is later than `now`. -/
theorem reminder_interval_counterexample :
    (NotifierBase.mk "ops" "email" 1 false true true false Minute).ShouldNotify
      ⟨AlertStateAlerting, ⟨AlertStateAlerting⟩⟩
      ⟨AlertNotificationStateCompleted, 9223372036854775807, by decide⟩
      (Time.Unix 1541325600 0) = true ∧
    (9223372036854775807 : Int) ≠ 0 ∧
    ¬ (9223372036854775807 * Second + Minute ≤ (Time.Unix 1541325600 0).unixNano) := by
  decide

/-- C4, amended.  Reminder interval with its exact boundary: for Alerting to
Alerting, reminders on, a Completed record and a non-zero `UpdatedAt` for which
the `int64` additions of `time.Unix(UpdatedAt, 0).Add(Frequency)` do not
overflow, `ShouldNotify` returns true if and only if
`UpdatedAt + Frequency ≤ now`. -/
theorem reminder_interval_boundary (n : NotifierBase) (context : EvalContext)
    (notiferState : AlertNotificationState) (now : Time)
    (hPrev : context.PrevAlertState = AlertStateAlerting)
    (hCur : context.Rule.State = AlertStateAlerting)
    (hReminder : n.SendReminder = true)
    (hState : notiferState.State = AlertNotificationStateCompleted)
    (hUpdated : notiferState.UpdatedAt ≠ 0)
    (hFits : UnixAddFits notiferState.UpdatedAt n.Frequency) :
    n.ShouldNotify context notiferState now = true ↔
      notiferState.UpdatedAt * Second + n.Frequency ≤ now.unixNano := by
  rw [ShouldNotify_eq_of_fits n context notiferState now (fun _ _ _ => hFits)
    (fun h => by rw [hState] at h; exact absurd h (by decide))]
  simp [hPrev, hCur, hReminder, hState, hUpdated]

/-- The boundary itself: at exactly `now = UpdatedAt + Frequency`. -/
theorem reminder_interval_boundary_witness :
    ((1541325600 : Int) ≠ 0 ∧ UnixAddFits 1541325600 Hour) ∧
    ((NotifierBase.mk "ops" "email" 1 false true true false Hour).ShouldNotify
      ⟨AlertStateAlerting, ⟨AlertStateAlerting⟩⟩
      ⟨AlertNotificationStateCompleted, 1541325600, by decide⟩
      ((Time.Unix 1541325600 0).Add Hour) = true ↔
      (1541325600 : Int) * Second + Hour ≤ ((Time.Unix 1541325600 0).Add Hour).unixNano) :=
  ⟨⟨by decide, by decide, by decide⟩,
   reminder_interval_boundary (NotifierBase.mk "ops" "email" 1 false true true false Hour)
    ⟨AlertStateAlerting, ⟨AlertStateAlerting⟩⟩
    ⟨AlertNotificationStateCompleted, 1541325600, by decide⟩
    ((Time.Unix 1541325600 0).Add Hour) rfl rfl rfl rfl (by decide)
    ⟨by decide, by decide⟩⟩

/-- C5, as stated, fails: with a Pending record whose `UpdatedAt` is the
largest `int64`, an Ok to Alerting change is dispatched although
`UpdatedAt + 1 minute` is later than `now`. -/
theorem pending_record_counterexample :
    (NotifierBase.mk "ops" "email" 1 false true false false Hour).ShouldNotify
      ⟨AlertStateOK, ⟨AlertStateAlerting⟩⟩
      ⟨AlertNotificationStatePending, 9223372036854775807, by decide⟩
      (Time.Unix 1541325600 0) = true ∧
    (Time.Unix 1541325600 0).unixNano < 9223372036854775807 * Second + Minute := by
  decide

/-- C5, amended.  Pending-record debounce: when the record is Pending, the
`int64` additions of `time.Unix(UpdatedAt, 0).Add(1 minute)` do not overflow
and `UpdatedAt + 1 minute` is strictly later than `now`, `ShouldNotify` returns
false, whatever the alert states and the notifier flags are. -/
theorem pending_record_debounce (n : NotifierBase) (context : EvalContext)
    (notiferState : AlertNotificationState) (now : Time)
    (hState : notiferState.State = AlertNotificationStatePending)
    (hFits : UnixAddFits notiferState.UpdatedAt Minute)
    (hRecent : now.unixNano < notiferState.UpdatedAt * Second + Minute) :
    n.ShouldNotify context notiferState now = false := by
  rw [NotifierBase.ShouldNotify, ShouldNotifyClock_eq, one_mul,
    After_Unix_Add _ _ now notiferState.UpdatedAt_int64 (by decide) hFits]
  simp [hState, hRecent]

/-- Scenario E: a Pending record updated ten seconds before `now`, on an Ok to
Alerting change that no other guard suppresses. -/
theorem pending_record_debounce_witness :
    (UnixAddFits 1541325600 Minute ∧
      ((Time.Unix 1541325600 0).Add (10 * Second)).unixNano <
        (1541325600 : Int) * Second + Minute) ∧
    (NotifierBase.mk "ops" "email" 1 false true false false Hour).ShouldNotify
      ⟨AlertStateOK, ⟨AlertStateAlerting⟩⟩
      ⟨AlertNotificationStatePending, 1541325600, by decide⟩
      ((Time.Unix 1541325600 0).Add (10 * Second)) = false :=
  ⟨⟨⟨by decide, by decide⟩, by decide⟩,
   pending_record_debounce (NotifierBase.mk "ops" "email" 1 false true false false Hour)
    ⟨AlertStateOK, ⟨AlertStateAlerting⟩⟩
    ⟨AlertNotificationStatePending, 1541325600, by decide⟩
    ((Time.Unix 1541325600 0).Add (10 * Second)) rfl ⟨by decide, by decide⟩ (by decide)⟩

/-- C6, the code at the failing input: a Pending record with `UpdatedAt = 0`
suppresses an Ok to Alerting change thirty seconds after the Unix epoch,
because the pending-record guard has no test for a zero timestamp, while the
reminder guard has one; sixty seconds after the epoch the same change is
dispatched, as the chain without the two interval guards decides. -/
theorem zero_timestamp_pending_suppressed :
    (AlertNotificationState.mk AlertNotificationStatePending 0).UpdatedAt = 0 ∧
    (NotifierBase.mk "ops" "email" 1 false true false false Hour).ShouldNotify
      ⟨AlertStateOK, ⟨AlertStateAlerting⟩⟩ ⟨AlertNotificationStatePending, 0, by decide⟩
      (Time.Unix 30 0) = false ∧
    (NotifierBase.mk "ops" "email" 1 false true false false Hour).ShouldNotify
      ⟨AlertStateOK, ⟨AlertStateAlerting⟩⟩ ⟨AlertNotificationStatePending, 0, by decide⟩
      (Time.Unix 60 0) = true ∧
    (NotifierBase.mk "ops" "email" 1 false true false false Hour).ShouldNotifyWithoutIntervalGuards
      ⟨AlertStateOK, ⟨AlertStateAlerting⟩⟩ = true := by
  decide

/-- C7. Scenario C: from Pending to Ok `ShouldNotify` returns false, whatever
the flags, the frequency, the record and `now` are. -/
theorem pending_to_ok_suppressed (n : NotifierBase) (context : EvalContext)
    (notiferState : AlertNotificationState) (now : Time)
    (hPrev : context.PrevAlertState = AlertStatePending)
    (hCur : context.Rule.State = AlertStateOK) :
    n.ShouldNotify context notiferState now = false := by
  rw [NotifierBase.ShouldNotify, ShouldNotifyClock_eq]
  simp [hPrev, hCur]

/-- Scenario C with reminders on, resolve messages enabled and a Completed
record from long ago. -/
theorem pending_to_ok_suppressed_witness :
    (NotifierBase.mk "ops" "email" 1 false true true false Hour).ShouldNotify
      ⟨AlertStatePending, ⟨AlertStateOK⟩⟩ ⟨AlertNotificationStateCompleted, 0, by decide⟩
      (Time.Unix 1541325600 0) = false :=
  pending_to_ok_suppressed (NotifierBase.mk "ops" "email" 1 false true true false Hour)
    ⟨AlertStatePending, ⟨AlertStateOK⟩⟩ ⟨AlertNotificationStateCompleted, 0, by decide⟩
    (Time.Unix 1541325600 0) rfl rfl

/-- C8. Resolve messages disabled: when the current state is Ok and
`DisableResolveMessage` is true, `ShouldNotify` returns false for every
previous state, record, reminder setting and `now`. -/
theorem resolve_disabled_suppressed (n : NotifierBase) (context : EvalContext)
    (notiferState : AlertNotificationState) (now : Time)
    (hCur : context.Rule.State = AlertStateOK)
    (hDisable : n.DisableResolveMessage = true) :
    n.ShouldNotify context notiferState now = false := by
  rw [NotifierBase.ShouldNotify, ShouldNotifyClock_eq]
  simp [hCur, hDisable]

/-- Scenario D: Alerting to Ok with resolve messages disabled. -/
theorem resolve_disabled_suppressed_witness :
    (NotifierBase.mk "ops" "email" 1 false true false true Hour).ShouldNotify
      ⟨AlertStateAlerting, ⟨AlertStateOK⟩⟩ ⟨AlertNotificationStateCompleted, 0, by decide⟩
      (Time.Unix 1541325600 0) = false :=
  resolve_disabled_suppressed (NotifierBase.mk "ops" "email" 1 false true false true Hour)
    ⟨AlertStateAlerting, ⟨AlertStateOK⟩⟩ ⟨AlertNotificationStateCompleted, 0, by decide⟩
    (Time.Unix 1541325600 0) rfl rfl

/-! ## The settings accessors -/

/-- C9. Missing key with a default: when the settings do not contain `key`,
each of `GetSettingBool`, `GetSettingString` and `GetSettingInt64`, called with
the default as its one variadic argument, returns that default and no error. -/
theorem missing_key_returns_default (model : AlertNotification) (key : String)
    (b : Bool) (s : String) (i : Int)
    (hMissing : model.Settings.CheckGet key = none) :
    GetSettingBool model key [b] = (b, none) ∧
    GetSettingString model key [s] = (s, none) ∧
    GetSettingInt64 model key [i] = (i, none) := by
  simp [GetSettingBool, GetSettingString, GetSettingInt64, hMissing, Id.run]

/-- Settings that hold only `addresses`, read at `uploadImage`. -/
theorem missing_key_returns_default_witness :
    (AlertNotification.mk 1 "ops" "email" false true false Hour
        (.object [("addresses", .string "ops@example.org")])).Settings.CheckGet "uploadImage" = none ∧
    (GetSettingBool (AlertNotification.mk 1 "ops" "email" false true false Hour
        (.object [("addresses", .string "ops@example.org")])) "uploadImage" [true] = (true, none) ∧
     GetSettingString (AlertNotification.mk 1 "ops" "email" false true false Hour
        (.object [("addresses", .string "ops@example.org")])) "uploadImage" ["yes"] = ("yes", none) ∧
     GetSettingInt64 (AlertNotification.mk 1 "ops" "email" false true false Hour
        (.object [("addresses", .string "ops@example.org")])) "uploadImage" [-7] = (-7, none)) :=
  ⟨rfl,
   missing_key_returns_default (AlertNotification.mk 1 "ops" "email" false true false Hour
        (.object [("addresses", .string "ops@example.org")])) "uploadImage" true "yes" (-7)
        rfl⟩

/-- C10. The error `Could not find <key> property in settings` is returned
exactly when the settings do not contain `key` and no default was supplied,
for each of the three accessors.  A call supplies its optional default as
the one variadic argument, or passes none. -/
theorem missing_setting_iff (model : AlertNotification) (key : String)
    (defaultBool : Option Bool) (defaultString : Option String) (defaultInt : Option Int) :
    ((GetSettingBool model key defaultBool.toList).2 =
        some ⟨"Could not find " ++ key ++ " property in settings"⟩ ↔
      (model.Settings.CheckGet key = none ∧ defaultBool = none)) ∧
    ((GetSettingString model key defaultString.toList).2 =
        some ⟨"Could not find " ++ key ++ " property in settings"⟩ ↔
      (model.Settings.CheckGet key = none ∧ defaultString = none)) ∧
    ((GetSettingInt64 model key defaultInt.toList).2 =
        some ⟨"Could not find " ++ key ++ " property in settings"⟩ ↔
      (model.Settings.CheckGet key = none ∧ defaultInt = none)) := by
  have hne := invalid_ne_missing key
  refine ⟨?_, ?_, ?_⟩
  · cases hget : model.Settings.CheckGet key with
    | none => cases defaultBool <;> simp [GetSettingBool, hget, Id.run]
    | some val =>
      cases defaultBool <;> cases val <;>
        simp [GetSettingBool, hget, Id.run, Json.Bool, Json.String, Json.Int64, hne]
  · cases hget : model.Settings.CheckGet key with
    | none => cases defaultString <;> simp [GetSettingString, hget, Id.run]
    | some val =>
      cases defaultString <;> cases val <;>
        simp [GetSettingString, hget, Id.run, Json.String, hne]
  · cases hget : model.Settings.CheckGet key with
    | none => cases defaultInt <;> simp [GetSettingInt64, hget, Id.run]
    | some val =>
      cases defaultInt <;> cases val <;>
        simp [GetSettingInt64, hget, Id.run, Json.String, Json.Int64, hne] <;>
        split <;> simp [hne]

/-- C11. Boolean coercion: when `key` is present with value `v`,
`GetSettingBool` returns `b` for the native boolean `b`, whether the string is
non-empty for a string, whether the integer is non-zero for an integer, each
without an error, and the invalid-value error for an object, the one other
kind; so `"x"` gives true, `""` false, `0` false and `5` true.  The variadic
tail `args` is arbitrary: a default does not change any of this. -/
theorem bool_coercion (model : AlertNotification) (key : String) (args : List Bool)
    (v : Json) (hPresent : model.Settings.CheckGet key = some v) :
    (∀ b, v = .bool b → GetSettingBool model key args = (b, none)) ∧
    (∀ s, v = .string s → GetSettingBool model key args = (decide (s ≠ ""), none)) ∧
    (∀ i, v = .int i → GetSettingBool model key args = (decide (i ≠ 0), none)) ∧
    (∀ fields, v = .object fields →
      (GetSettingBool model key args).2 =
        some ⟨"Invalid " ++ key ++ " property in settings"⟩) ∧
    (v = .string "x" → GetSettingBool model key args = (true, none)) ∧
    (v = .string "" → GetSettingBool model key args = (false, none)) ∧
    (v = .int 0 → GetSettingBool model key args = (false, none)) ∧
    (v = .int 5 → GetSettingBool model key args = (true, none)) := by
  refine ⟨?_, ?_, ?_, ?_, ?_, ?_, ?_, ?_⟩ <;> intros <;> subst_vars <;>
    simp [GetSettingBool, hPresent, Id.run, Json.Bool, Json.String, Json.Int64, bne,
      beq_eq_decide]

/-- The string `"x"` under `uploadImage`, read with the default false. -/
theorem bool_coercion_witness :
    (AlertNotification.mk 1 "ops" "email" false true false Hour
        (.object [("uploadImage", .string "x")])).Settings.CheckGet "uploadImage" =
      some (.string "x") ∧
    GetSettingBool (AlertNotification.mk 1 "ops" "email" false true false Hour
        (.object [("uploadImage", .string "x")])) "uploadImage" [false] = (true, none) :=
  ⟨rfl,
   (bool_coercion (AlertNotification.mk 1 "ops" "email" false true false Hour
        (.object [("uploadImage", .string "x")])) "uploadImage" [false] (.string "x")
        rfl).2.2.2.2.1 rfl⟩

/-- C12. Integer coercion: when `key` is present with value `v`,
`GetSettingInt64` returns the native integer unchanged; for a string it
returns `n` when the string is a base-10 signed representation of the int64
`n`, in particular for the decimal string of every int64 and for `"42"`, and
the invalid-value error when the string is no such representation, as for
`"abc"`, the empty string and `"9223372036854775808"`; a boolean or an object
gives the invalid-value error. -/
theorem int_coercion (model : AlertNotification) (key : String) (args : List Int)
    (v : Json) (hPresent : model.Settings.CheckGet key = some v) :
    (∀ i, v = .int i → GetSettingInt64 model key args = (i, none)) ∧
    (∀ s n, v = .string s → IsBase10Int64 s n →
      GetSettingInt64 model key args = (n, none)) ∧
    (∀ n : Int, -(2 ^ 63 : Int) ≤ n → n < 2 ^ 63 → v = .string (toString n) →
      GetSettingInt64 model key args = (n, none)) ∧
    (∀ s, v = .string s → (∀ n, ¬ IsBase10Int64 s n) →
      (GetSettingInt64 model key args).2 =
        some ⟨"Invalid " ++ key ++ " property in settings"⟩) ∧
    (v = .string "42" → GetSettingInt64 model key args = (42, none)) ∧
    (v = .string "abc" ∨ v = .string "" ∨ v = .string "9223372036854775808" →
      (GetSettingInt64 model key args).2 =
        some ⟨"Invalid " ++ key ++ " property in settings"⟩) ∧
    (∀ b, v = .bool b →
      (GetSettingInt64 model key args).2 =
        some ⟨"Invalid " ++ key ++ " property in settings"⟩) ∧
    (∀ fields, v = .object fields →
      (GetSettingInt64 model key args).2 =
        some ⟨"Invalid " ++ key ++ " property in settings"⟩) := by
  have hString : ∀ s n, v = .string s → ParseInt s = some n →
      GetSettingInt64 model key args = (n, none) := by
    intro s n hv hp
    subst hv
    simp [GetSettingInt64, hPresent, Id.run, Json.Int64, Json.String, hp]
  have hBad : ∀ s, v = .string s → ParseInt s = none →
      (GetSettingInt64 model key args).2 =
        some ⟨"Invalid " ++ key ++ " property in settings"⟩ := by
    intro s hv hp
    subst hv
    simp [GetSettingInt64, hPresent, Id.run, Json.Int64, Json.String, hp]
  refine ⟨?_, ?_, ?_, ?_, ?_, ?_, ?_, ?_⟩
  · intro i hv
    subst hv
    simp [GetSettingInt64, hPresent, Id.run, Json.Int64]
  · intro s n hv hrep
    exact hString s n hv ((ParseInt_eq_some_iff s n).mpr hrep)
  · intro n hlo hhi hv
    exact hString _ n hv (ParseInt_toString n hlo hhi)
  · intro s hv hnone
    apply hBad s hv
    cases hp : ParseInt s with
    | none => rfl
    | some n => exact absurd ((ParseInt_eq_some_iff s n).mp hp) (hnone n)
  · intro hv
    exact hString "42" 42 hv (by decide)
  · rintro (hv | hv | hv)
    · exact hBad _ hv (by decide)
    · exact hBad _ hv (by decide)
    · exact hBad _ hv (by decide)
  · intro b hv
    subst hv
    simp [GetSettingInt64, hPresent, Id.run, Json.Int64, Json.String]
  · intro fields hv
    subst hv
    simp [GetSettingInt64, hPresent, Id.run, Json.Int64, Json.String]

/-- The string `"42"` under `port`, read without a default. -/
theorem int_coercion_witness :
    (AlertNotification.mk 1 "ops" "webhook" false true false Hour
        (.object [("port", .string "42")])).Settings.CheckGet "port" = some (.string "42") ∧
    GetSettingInt64 (AlertNotification.mk 1 "ops" "webhook" false true false Hour
        (.object [("port", .string "42")])) "port" [] = (42, none) :=
  ⟨rfl,
   (int_coercion (AlertNotification.mk 1 "ops" "webhook" false true false Hour
        (.object [("port", .string "42")])) "port" [] (.string "42") rfl).2.2.2.2.1 rfl⟩

/-- C13. String retrieval accepts native strings only: when `key` is present
with value `v`, `GetSettingString` returns the native string unchanged and
without an error, the empty string included, and the invalid-value error for
a boolean, an integer, an object and any value that is no string. -/
theorem string_native_only (model : AlertNotification) (key : String) (args : List String)
    (v : Json) (hPresent : model.Settings.CheckGet key = some v) :
    (∀ s, v = .string s → GetSettingString model key args = (s, none)) ∧
    (v = .string "" → GetSettingString model key args = ("", none)) ∧
    ((∀ s, v ≠ .string s) →
      (GetSettingString model key args).2 =
        some ⟨"Invalid " ++ key ++ " property in settings"⟩) ∧
    (∀ b, v = .bool b →
      (GetSettingString model key args).2 =
        some ⟨"Invalid " ++ key ++ " property in settings"⟩) ∧
    (∀ i, v = .int i →
      (GetSettingString model key args).2 =
        some ⟨"Invalid " ++ key ++ " property in settings"⟩) ∧
    (∀ fields, v = .object fields →
      (GetSettingString model key args).2 =
        some ⟨"Invalid " ++ key ++ " property in settings"⟩) := by
  refine ⟨?_, ?_, ?_, ?_, ?_, ?_⟩
  · intro s hs
    simp [GetSettingString, hPresent, Id.run, Json.String, hs]
  · intro hs
    simp [GetSettingString, hPresent, Id.run, Json.String, hs]
  · intro hne
    cases v <;> simp_all [GetSettingString, Id.run, Json.String]
  · intro b hv
    simp [GetSettingString, hPresent, Id.run, Json.String, hv]
  · intro i hv
    simp [GetSettingString, hPresent, Id.run, Json.String, hv]
  · intro fields hv
    simp [GetSettingString, hPresent, Id.run, Json.String, hv]

/-- An integer under `url` is not converted to a string. -/
theorem string_native_only_witness :
    (AlertNotification.mk 1 "ops" "webhook" false true false Hour
        (.object [("url", .int 8080)])).Settings.CheckGet "url" = some (.int 8080) ∧
    (GetSettingString (AlertNotification.mk 1 "ops" "webhook" false true false Hour
        (.object [("url", .int 8080)])) "url" []).2 =
      some ⟨"Invalid " ++ "url" ++ " property in settings"⟩ :=
  ⟨rfl,
   (string_native_only (AlertNotification.mk 1 "ops" "webhook" false true false Hour
        (.object [("url", .int 8080)])) "url" [] (.int 8080) rfl).2.2.2.2.1 8080 rfl⟩

/-- C14, what the code does: when `key` is present with a value that is no
string, `GetSettingString` called with the default `d` returns the empty
string with the invalid-value error, not `d`. -/
theorem string_invalid_drops_default (model : AlertNotification) (key : String)
    (d : String) (v : Json) (hPresent : model.Settings.CheckGet key = some v)
    (hNotString : ∀ s, v ≠ .string s) :
    GetSettingString model key [d] =
      ("", some ⟨"Invalid " ++ key ++ " property in settings"⟩) := by
  cases v <;> simp_all [GetSettingString, Id.run, Json.String]

/-- An integer under `url`, read with the default `http://localhost`, which
is lost. -/
theorem string_invalid_drops_default_witness :
    ((AlertNotification.mk 1 "ops" "webhook" false true false Hour
        (.object [("url", .int 8080)])).Settings.CheckGet "url" = some (.int 8080) ∧
      ∀ s, Json.int 8080 ≠ .string s) ∧
    GetSettingString (AlertNotification.mk 1 "ops" "webhook" false true false Hour
        (.object [("url", .int 8080)])) "url" ["http://localhost"] =
      ("", some ⟨"Invalid " ++ "url" ++ " property in settings"⟩) :=
  ⟨⟨rfl, fun _ h => Json.noConfusion h⟩,
   string_invalid_drops_default (AlertNotification.mk 1 "ops" "webhook" false true false Hour
        (.object [("url", .int 8080)])) "url" "http://localhost" (.int 8080) rfl
        (fun _ h => Json.noConfusion h)⟩

/-- C15. `GetSettingBool` and `GetSettingInt64` return the default next to the
invalid-value error: when the key is present with a value on which no accepted
coercion of the accessor succeeds, the value returned is the supplied default,
or false respectively 0 when none was supplied, and the error is the
invalid-value error.  Each accessor is taken on its own. -/
theorem invalid_returns_default (model : AlertNotification) (key : String)
    (defaultBool : Option Bool) (defaultInt : Option Int) (v : Json)
    (hPresent : model.Settings.CheckGet key = some v) :
    ((v.Bool = none ∧ v.String = none ∧ v.Int64 = none) →
      GetSettingBool model key defaultBool.toList =
        (defaultBool.getD false, some ⟨"Invalid " ++ key ++ " property in settings"⟩)) ∧
    ((v.Int64 = none ∧ ∀ s, v.String = some s → ParseInt s = none) →
      GetSettingInt64 model key defaultInt.toList =
        (defaultInt.getD 0, some ⟨"Invalid " ++ key ++ " property in settings"⟩)) := by
  constructor
  · rintro ⟨h1, h2, h3⟩
    cases defaultBool <;> simp [GetSettingBool, hPresent, Id.run, h1, h2, h3]
  · rintro ⟨h1, h2⟩
    cases hs : v.String with
    | none => cases defaultInt <;> simp [GetSettingInt64, hPresent, Id.run, h1, hs]
    | some s =>
      cases defaultInt <;> simp [GetSettingInt64, hPresent, Id.run, h1, hs, h2 s hs]

/-- The string `"abc"` under `port`, read by `GetSettingInt64` with the default
7: the settings hold no value that `GetSettingBool` would reject. -/
theorem invalid_returns_default_witness :
    (AlertNotification.mk 1 "ops" "webhook" false true false Hour
        (.object [("port", .string "abc")])).Settings.CheckGet "port" =
      some (.string "abc") ∧
    GetSettingInt64 (AlertNotification.mk 1 "ops" "webhook" false true false Hour
        (.object [("port", .string "abc")])) "port" (some 7).toList =
      ((some 7).getD 0, some ⟨"Invalid " ++ "port" ++ " property in settings"⟩) :=
  ⟨rfl,
   (invalid_returns_default (AlertNotification.mk 1 "ops" "webhook" false true false Hour
        (.object [("port", .string "abc")])) "port" (some true) (some 7) (.string "abc")
        rfl).2
      ⟨rfl, fun s hs => by
        have : s = "abc" := (Option.some.inj hs).symm
        subst this
        decide⟩⟩

/-- C16. Every error carries the offending key: whenever one of the three
accessors returns an error, its message is `Could not find <key> property in
settings` or `Invalid <key> property in settings`, and so contains `key`.  The
variadic tails are arbitrary. -/
theorem errors_carry_key (model : AlertNotification) (key : String)
    (argsBool : List Bool) (argsString : List String) (argsInt : List Int)
    (e : ValidationError)
    (hError : (GetSettingBool model key argsBool).2 = some e ∨
      (GetSettingString model key argsString).2 = some e ∨
      (GetSettingInt64 model key argsInt).2 = some e) :
    (e.Reason = "Could not find " ++ key ++ " property in settings" ∨
      e.Reason = "Invalid " ++ key ++ " property in settings") ∧
    ∃ pre post : String, e.Reason = pre ++ key ++ post := by
  have hforms : e.Reason = "Could not find " ++ key ++ " property in settings" ∨
      e.Reason = "Invalid " ++ key ++ " property in settings" := by
    rcases hError with h | h | h
    · rcases GetSettingBool_error_cases model key argsBool with h' | h' | h' <;>
        rw [h'] at h <;> simp at h <;> simp [← h]
    · rcases GetSettingString_error_cases model key argsString with h' | h' | h' <;>
        rw [h'] at h <;> simp at h <;> simp [← h]
    · rcases GetSettingInt64_error_cases model key argsInt with h' | h' | h' <;>
        rw [h'] at h <;> simp at h <;> simp [← h]
  refine ⟨hforms, ?_⟩
  rcases hforms with h | h
  · exact ⟨"Could not find ", " property in settings", h⟩
  · exact ⟨"Invalid ", " property in settings", h⟩

/-- An object under `url`: `GetSettingBool` with the default true returns the
invalid-value error, which names `url`. -/
theorem errors_carry_key_witness :
    ((GetSettingBool (AlertNotification.mk 1 "ops" "webhook" false true false Hour
        (.object [("url", .object [])])) "url" [true]).2 =
        some ⟨"Invalid url property in settings"⟩ ∨
      (GetSettingString (AlertNotification.mk 1 "ops" "webhook" false true false Hour
        (.object [("url", .object [])])) "url" []).2 =
        some ⟨"Invalid url property in settings"⟩ ∨
      (GetSettingInt64 (AlertNotification.mk 1 "ops" "webhook" false true false Hour
        (.object [("url", .object [])])) "url" [3, 4]).2 =
        some ⟨"Invalid url property in settings"⟩) ∧
    ((ValidationError.mk "Invalid url property in settings").Reason =
        "Could not find " ++ "url" ++ " property in settings" ∨
      (ValidationError.mk "Invalid url property in settings").Reason =
        "Invalid " ++ "url" ++ " property in settings") ∧
    ∃ pre post : String,
      (ValidationError.mk "Invalid url property in settings").Reason = pre ++ "url" ++ post :=
  ⟨Or.inl (by decide),
   errors_carry_key (AlertNotification.mk 1 "ops" "webhook" false true false Hour
        (.object [("url", .object [])])) "url" [true] [] [3, 4]
        ⟨"Invalid url property in settings"⟩ (Or.inl (by decide))⟩

/-! ## The decision `ShouldNotify`: determinism, order and time -/

/-- C17. Determinism of the decision: a call at the clock value `now` returns
the decision `ShouldNotify` of its inputs, leaves the configuration, the
evaluation context and the notification record as they were, and a second
call on what the first one left returns the same decision. -/
theorem shouldNotify_deterministic (σ : CallState) (now : Time) :
    (ShouldNotifyCall now now σ).1 = σ.n.ShouldNotify σ.context σ.notiferState now ∧
    (ShouldNotifyCall now now σ).2 = σ ∧
    (ShouldNotifyCall now now (ShouldNotifyCall now now σ).2).1 =
      (ShouldNotifyCall now now σ).1 := by
  simp [ShouldNotifyCall_eq, NotifierBase.ShouldNotify]

/-- C18. The order of the guards matters: run on a clock, the six guards in
reverse order decide differently from `ShouldNotify`.  For a steady Alerting
state with reminders on, a frequency of one second and a Pending record, the
source takes its first reading, one nanosecond before `UpdatedAt + 1 minute`,
in the reminder block and its second, at `UpdatedAt + 1 minute`, in the
pending-record block, and dispatches; in reverse order the pending-record
block takes the first reading and suppresses. -/
theorem guard_order_matters :
    ∃ (guards : List Guard) (clock : Clock) (n : NotifierBase) (context : EvalContext)
        (notiferState : AlertNotificationState),
      guards.Perm shouldNotifyGuards ∧
      (∀ k, (clock k).unixNano ≤ (clock (k + 1)).unixNano) ∧
      decideWith shouldNotifyGuards clock n context notiferState =
        n.ShouldNotifyClock context notiferState (clock 0) (clock 1) ∧
      decideWith guards clock n context notiferState ≠
        n.ShouldNotifyClock context notiferState (clock 0) (clock 1) := by
  refine ⟨shouldNotifyGuards.reverse,
    fun k => if k = 0 then Time.Unix 1541325659 999999999 else Time.Unix 1541325660 0,
    NotifierBase.mk "ops" "email" 1 false true true false Second,
    ⟨AlertStateAlerting, ⟨AlertStateAlerting⟩⟩,
    ⟨AlertNotificationStatePending, 1541325600, by decide⟩,
    List.reverse_perm _, ?_, by decide, by decide⟩
  intro k
  cases k with
  | zero => decide
  | succ k => simp

/-- C19. No notification between inert states: when the previous and the
current state are both Ok or Pending, `ShouldNotify` returns false, whatever
the flags, the frequency, the record and `now` are. -/
theorem inert_states_never_notify (n : NotifierBase) (context : EvalContext)
    (notiferState : AlertNotificationState) (now : Time)
    (hPrev : context.PrevAlertState = AlertStateOK ∨
      context.PrevAlertState = AlertStatePending)
    (hCur : context.Rule.State = AlertStateOK ∨ context.Rule.State = AlertStatePending) :
    n.ShouldNotify context notiferState now = false := by
  rw [NotifierBase.ShouldNotify, ShouldNotifyClock_eq]
  rcases hPrev with hp | hp <;> rcases hCur with hc | hc <;>
    cases hr : n.SendReminder <;> simp [hp, hc, hr]

/-- Ok to Ok with reminders on, two hours after the last update and a
frequency of one hour: no reminder. -/
theorem inert_states_never_notify_witness :
    ((AlertStateOK = AlertStateOK ∨ AlertStateOK = AlertStatePending) ∧
      (AlertStateOK = AlertStateOK ∨ AlertStateOK = AlertStatePending)) ∧
    (NotifierBase.mk "ops" "email" 1 false true true false Hour).ShouldNotify
      ⟨AlertStateOK, ⟨AlertStateOK⟩⟩ ⟨AlertNotificationStateCompleted, 1541325600, by decide⟩
      ((Time.Unix 1541325600 0).Add (2 * Hour)) = false :=
  ⟨by decide,
   inert_states_never_notify (NotifierBase.mk "ops" "email" 1 false true true false Hour)
      ⟨AlertStateOK, ⟨AlertStateOK⟩⟩ ⟨AlertNotificationStateCompleted, 1541325600, by decide⟩
      ((Time.Unix 1541325600 0).Add (2 * Hour)) (Or.inl rfl) (Or.inl rfl)⟩

/-- C20. Monotonicity in time: when `ShouldNotify` returns true at `now`, it
returns true at every later `now'`, for every frequency, zero and negative
ones included. -/
theorem monotone_in_time (n : NotifierBase) (context : EvalContext)
    (notiferState : AlertNotificationState) (now now' : Time)
    (hLater : now.unixNano ≤ now'.unixNano)
    (hNotify : n.ShouldNotify context notiferState now = true) :
    n.ShouldNotify context notiferState now' = true := by
  rw [NotifierBase.ShouldNotify, ShouldNotifyClock_eq] at hNotify ⊢
  rw [Time.After_eq_decide, Time.After_eq_decide] at hNotify ⊢
  simp only [Bool.and_eq_true, Bool.not_eq_true', Bool.and_eq_false_iff,
    decide_eq_false_iff_not, not_lt] at hNotify ⊢
  obtain ⟨⟨⟨⟨⟨⟨h1, h2⟩, h3⟩, h4⟩, h5⟩, h6⟩, h7⟩ := hNotify
  refine ⟨⟨⟨⟨⟨⟨h1, ?_⟩, h3⟩, h4⟩, h5⟩, ?_⟩, h7⟩
  · rcases h2 with h | h | h
    · exact Or.inl h
    · exact Or.inr (Or.inl h)
    · exact Or.inr (Or.inr (le_trans h hLater))
  · rcases h6 with h | h
    · exact Or.inl h
    · exact Or.inr (le_trans h hLater)

/-- A steady Alerting state with a frequency of minus one hour, at the time of
the last update and one hour later. -/
theorem monotone_in_time_witness :
    ((Time.Unix 1541325600 0).unixNano ≤ (Time.Unix 1541329200 0).unixNano ∧
      (NotifierBase.mk "ops" "email" 1 false true true false (-Hour)).ShouldNotify
        ⟨AlertStateAlerting, ⟨AlertStateAlerting⟩⟩ ⟨AlertNotificationStateCompleted, 1541325600, by decide⟩
        (Time.Unix 1541325600 0) = true) ∧
    (NotifierBase.mk "ops" "email" 1 false true true false (-Hour)).ShouldNotify
      ⟨AlertStateAlerting, ⟨AlertStateAlerting⟩⟩ ⟨AlertNotificationStateCompleted, 1541325600, by decide⟩
      (Time.Unix 1541329200 0) = true :=
  ⟨by decide,
   monotone_in_time (NotifierBase.mk "ops" "email" 1 false true true false (-Hour))
      ⟨AlertStateAlerting, ⟨AlertStateAlerting⟩⟩ ⟨AlertNotificationStateCompleted, 1541325600, by decide⟩
      (Time.Unix 1541325600 0) (Time.Unix 1541329200 0) (by decide) (by decide)⟩

end Notifiers
